import Mathlib

/-!
# Verification of the ppdo-staging project/breakdown core

Shallow embedding of the Convex backend of this repository:

* `convex/lib/projectActivityLogger.ts` (`logProjectActivity`)
* `convex/lib/projectAggregation.ts` (`recalculateProjectMetrics`)
* `convex/lib/aggregationUtils.ts` (`calculateAggregation`)
* `convex/govtProjects.ts` (single and bulk breakdown CRUD mutations,
  `statusValidator`)
* `convex/schema/govtProjectBreakdowns.ts` (stored `status` union)

JavaScript numbers are modelled as `ℚ`, timestamps (`Date.now()`) as an
explicit `now : Nat` parameter, document ids as `Nat`, and the Convex
document store as association lists held in a `DB` structure.  Mutation
handlers are state-passing functions `DB → DB × Except String α`; per the
specification's concurrency section the store is a sequence of independent
record-store calls (writes performed before a later failure persist).
-/

namespace PPDO

/-- Model of a JavaScript value as stored in a document field.  Only the
atomic shapes the embedded code inspects are distinguished. -/
inductive Value where
  | vnum : ℚ → Value
  | vstr : String → Value
  | vbool : Bool → Value
  | vnull : Value
  | vundefined : Value
deriving DecidableEq, Repr

/-- `typeof value === "number"` projection: the numeric payload when the
value is a number, `none` otherwise. -/
def Value.asNum : Value → Option ℚ
  | .vnum q => some q
  | _ => none

/-- JavaScript `value != null` (loose inequality): false exactly for
`null` and `undefined`. -/
def Value.isNonNull : Value → Bool
  | .vnull => false
  | .vundefined => false
  | _ => true

/-- Model of `JSON.stringify` on an atomic value: `undefined` serializes
to no string at all (the JS result is `undefined`), every other atomic
value to a string determined by its payload. -/
def jsonStringify : Value → Option String
  | .vnum q => some (toString q)
  | .vstr s => some ("\x22" ++ s ++ "\x22")
  | .vbool b => some (toString b)
  | .vnull => some "null"
  | .vundefined => none

/-- A snapshot / generic record: an association list from field name to
value (a JS object). -/
def Snapshot := List (String × Value)

instance : DecidableEq Snapshot := inferInstanceAs (DecidableEq (List (String × Value)))

instance : Repr Snapshot := inferInstanceAs (Repr (List (String × Value)))

/-- JS property access: a missing key reads as `undefined`. -/
def getVal (s : Snapshot) (k : String) : Value :=
  match s.lookup k with
  | some v => v
  | none => .vundefined

/-- The keys of a snapshot. -/
def keysOf (s : Snapshot) : List String := s.map Prod.fst

/-- First-occurrence deduplication, the iteration order of a JS `Set`
built by insertion. -/
def dedupFirst : List String → List String
  | [] => []
  | k :: rest => k :: (dedupFirst rest).filter (fun x => x ≠ k)

/-- JS `a || b` on optional objects: first operand that is present. -/
def orO {α : Type} (a b : Option α) : Option α :=
  match a with
  | some x => some x
  | none => b

/-- JS `v || defaultString` where the code expects a string field:
a nonempty string passes through, anything else falls back. -/
def jsStrOr (v : Value) (d : String) : String :=
  match v with
  | .vstr s => if s = "" then d else s
  | _ => d

/-! ## The activity diff (`projectActivityLogger.ts` lines 40–58) -/

/-- System fields skipped by the project activity diff
(`projectActivityLogger.ts` line 48). -/
def systemFields : List String :=
  ["_id", "_creationTime", "updatedAt", "updatedBy", "createdAt", "createdBy"]

/-- `changedFields` computation of `logProjectActivity`: iterate the set
union of both snapshots' keys, skip system fields, and keep keys whose
`JSON.stringify` serializations differ. -/
def computeChangedFields (prev nw : Snapshot) : List String :=
  (dedupFirst (keysOf prev ++ keysOf nw)).filter
    (fun k => k ∉ systemFields ∧ jsonStringify (getVal prev k) ≠ jsonStringify (getVal nw k))

/-- The smart summary flags built from `changedFields`
(`projectActivityLogger.ts` lines 60–81).  In JS the object only ever
receives a key together with a `true` flag, so emptiness of the object is
the conjunction of the five flags being unset. -/
structure ChangeSummary where
  budgetChanged : Bool := false
  oldBudget : Value := .vundefined
  newBudget : Value := .vundefined
  scheduleChanged : Bool := false
  managerChanged : Bool := false
  statusChanged : Bool := false
  categoryChanged : Bool := false
deriving DecidableEq, Repr

def buildChangeSummary (cf : List String) (prev nw : Snapshot) : ChangeSummary :=
  { budgetChanged := cf.contains "totalBudgetAllocated"
    oldBudget := if cf.contains "totalBudgetAllocated" then getVal prev "totalBudgetAllocated" else .vundefined
    newBudget := if cf.contains "totalBudgetAllocated" then getVal nw "totalBudgetAllocated" else .vundefined
    scheduleChanged := cf.contains "targetDateCompletion"
    managerChanged := cf.contains "projectManagerId"
    statusChanged := cf.contains "status"
    categoryChanged := cf.contains "categoryId" }

/-- `Object.keys(changeSummary).length > 0`. -/
def ChangeSummary.nonEmpty (cs : ChangeSummary) : Bool :=
  cs.budgetChanged || cs.scheduleChanged || cs.managerChanged || cs.statusChanged || cs.categoryChanged

/-! ## Data model -/

abbrev UserId := Nat
abbrev ProjectId := Nat
abbrev BreakdownId := Nat

/-- The fields of a `users` document the logger reads. -/
structure User where
  name : Option String := none
  email : Option String := none
  role : Option String := none
deriving DecidableEq, Repr

/-- Argument payload of a single breakdown create
(`govtProjects.ts` `createProjectBreakdown` args / bulk create items).
All numeric fields are JS numbers (`ℚ`); `none` means the optional
argument was omitted. -/
structure BreakdownArgs where
  projectName : String
  implementingOffice : String
  projectId : Option ProjectId := none
  municipality : Option String := none
  barangay : Option String := none
  district : Option String := none
  allocatedBudget : Option ℚ := none
  obligatedBudget : Option ℚ := none
  budgetUtilized : Option ℚ := none
  balance : Option ℚ := none
  status : Option String := none
  dateStarted : Option Nat := none
  targetDate : Option Nat := none
  completionDate : Option Nat := none
  remarks : Option String := none
  projectTitle : Option String := none
  utilizationRate : Option ℚ := none
  projectAccomplishment : Option ℚ := none
  reportDate : Option Nat := none
  batchId : Option String := none
  fundSource : Option String := none
deriving DecidableEq, Repr

/-- A stored `govtProjectBreakdowns` document: the argument fields plus
the system fields the mutations write. -/
structure Breakdown extends BreakdownArgs where
  createdBy : UserId
  createdAt : Nat
  updatedAt : Option Nat := none
  updatedBy : Option UserId := none
deriving DecidableEq, Repr

/-- The slice of a `projects` document touched by
`recalculateProjectMetrics`. -/
structure Project where
  projectCompleted : Nat
  projectDelayed : Nat
  projectsOnTrack : Nat
  updatedAt : Nat
  updatedBy : Option UserId := none
deriving DecidableEq, Repr

/-- A stored `projectActivities` document
(`projectActivityLogger.ts` lines 84–103).  The two JSON blob fields
store the serialized snapshots; the model keeps the snapshots themselves
(serialization is injective on the information the claims inspect). -/
structure ActivityRecord where
  action : String
  projectId : Option ProjectId
  particulars : String
  implementingOffice : String
  budgetItemId : Value
  previousValues : Option Snapshot
  newValues : Option Snapshot
  changedFields : Option (List String)
  changeSummary : Option ChangeSummary
  performedBy : UserId
  performedByName : String
  performedByEmail : String
  performedByRole : String
  timestamp : Nat
  reason : Option String
deriving DecidableEq, Repr

/-- The document store.  `govtActivities` counts the records written by
the (source-absent) govt-project activity logger; `nextId` supplies fresh
document ids. -/
structure DB where
  users : List (UserId × User) := []
  projects : List (ProjectId × Project) := []
  breakdowns : List (BreakdownId × Breakdown) := []
  activities : List ActivityRecord := []
  govtActivities : Nat := 0
  nextId : Nat := 0
deriving DecidableEq, Repr

def lookupUser (db : DB) (uid : UserId) : Option User :=
  (db.users.find? (fun p => p.1 == uid)).map Prod.snd

def lookupProject (db : DB) (pid : ProjectId) : Option Project :=
  (db.projects.find? (fun p => p.1 == pid)).map Prod.snd

def lookupBreakdown (db : DB) (bid : BreakdownId) : Option Breakdown :=
  (db.breakdowns.find? (fun p => p.1 == bid)).map Prod.snd

/-- `ctx.db.patch` on a `projects` document: fails (a store error) when
the document does not exist, otherwise replaces its patched fields. -/
def patchProject (db : DB) (pid : ProjectId) (f : Project → Project) :
    DB × Except String Unit :=
  match lookupProject db pid with
  | none => (db, .error "Update on nonexistent document")
  | some _ =>
    ({ db with projects := db.projects.map (fun p => if p.1 == pid then (p.1, f p.2) else p) },
     .ok ())

/-- `ctx.db.patch` on a breakdown document (callers dereference the
document first, so existence is already established). -/
def patchBreakdown (db : DB) (bid : BreakdownId) (b : Breakdown) : DB :=
  { db with breakdowns := db.breakdowns.map (fun p => if p.1 == bid then (p.1, b) else p) }

/-- `ctx.db.insert("govtProjectBreakdowns", …)`. -/
def insertBreakdown (db : DB) (b : Breakdown) : DB × BreakdownId :=
  ({ db with breakdowns := db.breakdowns ++ [(db.nextId, b)], nextId := db.nextId + 1 },
   db.nextId)

/-- `ctx.db.delete` on a breakdown document. -/
def deleteBreakdown (db : DB) (bid : BreakdownId) : DB :=
  { db with breakdowns := db.breakdowns.filter (fun p => p.1 != bid) }

/-! ## Activity logger (`convex/lib/projectActivityLogger.ts`) -/

/-- `ProjectLogConfig` (`projectActivityLogger.ts` lines 8–15). -/
structure ProjectLogConfig where
  action : String
  projectId : Option ProjectId := none
  project : Option Snapshot := none
  previousValues : Option Snapshot := none
  newValues : Option Snapshot := none
  reason : Option String := none
deriving DecidableEq, Repr

/-- The diff step of `logProjectActivity`
(`projectActivityLogger.ts` lines 36–82): `changedFields` and the smart
summary are computed only for an "updated" action carrying both
snapshots. -/
def diffOf (config : ProjectLogConfig) : List String × ChangeSummary :=
  if config.action = "updated" then
    match config.previousValues, config.newValues with
    | some prev, some nw =>
      let cf := computeChangedFields prev nw
      (cf, buildChangeSummary cf prev nw)
    | _, _ => ([], ({} : ChangeSummary))
  else ([], ({} : ChangeSummary))

/-- The body of `logProjectActivity` inside its `try` block.  The insert
of the activity record can raise a store error, injected here through the
`insertFails` oracle; any such error escapes this body. -/
def logProjectActivityBody (db : DB) (uid : UserId) (config : ProjectLogConfig)
    (insertFails : Bool) (now : Nat) : DB × Except String Unit :=
  match lookupUser db uid with
  | none => (db, .ok ())
  | some user =>
    let projectData := (orO config.project (orO config.newValues config.previousValues)).getD []
    let cf := (diffOf config).1
    let cs := (diffOf config).2
    if insertFails then
      (db, .error "Failed to insert activity record")
    else
      let entry : ActivityRecord :=
        { action := config.action
          projectId := config.projectId
          particulars := jsStrOr (getVal projectData "particulars") "Unknown Project"
          implementingOffice := jsStrOr (getVal projectData "implementingOffice") "Unknown Office"
          budgetItemId := getVal projectData "budgetItemId"
          previousValues := config.previousValues
          newValues := config.newValues
          changedFields := if cf.length > 0 then some cf else none
          changeSummary := if cs.nonEmpty then some cs else none
          performedBy := uid
          performedByName := user.name.getD "Unknown"
          performedByEmail := user.email.getD ""
          performedByRole := user.role.getD "user"
          timestamp := now
          reason := config.reason }
      ({ db with activities := db.activities ++ [entry] }, .ok ())

/-- `logProjectActivity` (`projectActivityLogger.ts` lines 21–108): the
body wrapped in the `try { … } catch { console.error(…) }` that contains
every failure. -/
def logProjectActivity (db : DB) (uid : UserId) (config : ProjectLogConfig)
    (insertFails : Bool) (now : Nat) : DB × Except String Unit :=
  match logProjectActivityBody db uid config insertFails now with
  | (db', .ok _) => (db', .ok ())
  | (_, .error _) => (db, .ok ())

/-! ## Recalculation service (`convex/lib/projectAggregation.ts`) -/

/-- The three recognized status values
(`projectAggregation.ts` lines 43–59): everything else falls in no
bucket. -/
def recognizedStatus (s : Option String) : Bool :=
  s == some "completed" || s == some "delayed" || s == some "ongoing"

structure Buckets where
  completed : Nat := 0
  delayed : Nat := 0
  onTrack : Nat := 0
deriving DecidableEq, Repr

/-- One step of the `breakdowns.reduce` accumulator
(`projectAggregation.ts` lines 44–59). -/
def bucketStep (acc : Buckets) (b : Breakdown) : Buckets :=
  if b.status = some "completed" then { acc with completed := acc.completed + 1 }
  else if b.status = some "delayed" then { acc with delayed := acc.delayed + 1 }
  else if b.status = some "ongoing" then { acc with onTrack := acc.onTrack + 1 }
  else acc

def statusBuckets (bs : List Breakdown) : Buckets :=
  bs.foldl bucketStep {}

/-- The children of a parent: all breakdowns whose `projectId` equals the
parent id (the `withIndex("projectId", …)` query). -/
def childBreakdowns (db : DB) (pid : ProjectId) : List Breakdown :=
  (db.breakdowns.filter (fun p => p.2.projectId == some pid)).map Prod.snd

/-- Return payload of `recalculateProjectMetrics`. -/
structure RecalcResult where
  breakdownsCount : Nat
  completed : Nat
  delayed : Nat
  onTrack : Nat
deriving DecidableEq, Repr

/-- `recalculateProjectMetrics` (`projectAggregation.ts` lines 14–74):
load all children of the parent; with no children reset the three
counters to 0, otherwise count statuses into the three buckets; patch the
parent (counters plus audit fields) and return the counts. -/
def recalculateProjectMetrics (db : DB) (pid : ProjectId) (uid : UserId) (now : Nat) :
    DB × Except String RecalcResult :=
  let bs := childBreakdowns db pid
  if bs.isEmpty then
    match patchProject db pid (fun p =>
        { p with projectCompleted := 0, projectDelayed := 0, projectsOnTrack := 0,
                 updatedAt := now, updatedBy := some uid }) with
    | (db', .ok _) => (db', .ok ⟨0, 0, 0, 0⟩)
    | (db', .error e) => (db', .error e)
  else
    let agg := statusBuckets bs
    match patchProject db pid (fun p =>
        { p with projectCompleted := agg.completed, projectDelayed := agg.delayed,
                 projectsOnTrack := agg.onTrack, updatedAt := now, updatedBy := some uid }) with
    | (db', .ok _) => (db', .ok ⟨bs.length, agg.completed, agg.delayed, agg.onTrack⟩)
    | (db', .error e) => (db', .error e)

/-- The project patch both branches of `recalculateProjectMetrics`
perform: counters overwritten with the bucket counts, audit fields
refreshed. -/
def recalcPatchProj (P : Project) (agg : Buckets) (uid : UserId) (now : Nat) : Project :=
  { P with projectCompleted := agg.completed, projectDelayed := agg.delayed,
           projectsOnTrack := agg.onTrack, updatedAt := now, updatedBy := some uid }

/-! ## Status validators -/

/-- The stored schema's `status` union for `govtProjectBreakdowns`
(`convex/schema/govtProjectBreakdowns.ts` lines 37–45). -/
def schemaStatusValues : List String :=
  ["Completed", "On-Going", "On-Hold", "Cancelled", "Delayed"]

def schemaStatusAccepts (s : String) : Bool := schemaStatusValues.contains s

/-- `statusValidator` shared by every breakdown mutation
(`convex/govtProjects.ts` lines 434–438). -/
def statusValidatorValues : List String := ["completed", "delayed", "ongoing"]

def statusValidatorAccepts (s : String) : Bool := statusValidatorValues.contains s

/-! ## Mutation orchestrator (`convex/govtProjects.ts`) -/

/-- Modelled from the spec: `logGovtProjectActivity`
(`convex/lib/govtProjectActivityLogger.ts` is not part of the sources;
only its callers are).  Per the specification's ActivityLogger section it
writes one audit record and contains every failure, so it is modelled as
an unconditional append that never raises. -/
def logGovtProjectActivity (db : DB) : DB :=
  { db with govtActivities := db.govtActivities + 1 }

/-- Modelled from the spec: `logBulkGovtProjectActivity` writes one audit
record per item, never raises, and returns one shared batch id. -/
def logBulkGovtProjectActivity (db : DB) (items : Nat) : DB × String :=
  ({ db with govtActivities := db.govtActivities + items }, "batch")

/-- Build the stored breakdown document a create writes
(`govtProjects.ts` lines 485–491): the argument fields plus
`createdBy/createdAt/updatedAt/updatedBy`. -/
def breakdownOfArgs (a : BreakdownArgs) (uid : UserId) (now : Nat) : Breakdown :=
  { toBreakdownArgs := a, createdBy := uid, createdAt := now,
    updatedAt := some now, updatedBy := some uid }

/-- `createProjectBreakdown` (`govtProjects.ts` lines 444–513): verify a
supplied parent exists, insert, log, and recalculate the parent when
linked. -/
def createProjectBreakdown (db : DB) (auth : Option UserId) (args : BreakdownArgs)
    (now : Nat) : DB × Except String BreakdownId :=
  match auth with
  | none => (db, .error "Not authenticated")
  | some uid =>
    if args.projectId.any (fun pid => (lookupProject db pid).isNone) then
      (db, .error "Parent project not found")
    else
      let ins := insertBreakdown db (breakdownOfArgs args uid now)
      let db2 := logGovtProjectActivity ins.1
      match args.projectId with
      | some pid =>
        match recalculateProjectMetrics db2 pid uid now with
        | (db3, .ok _) => (db3, .ok ins.2)
        | (db3, .error e) => (db3, .error e)
      | none => (db2, .ok ins.2)

/-- Argument payload of a single breakdown update and of each bulk
update item (`govtProjects.ts` lines 520–543 and 755–777): every field
optional, `batchId` not updatable. -/
structure UpdateItem where
  breakdownId : BreakdownId
  projectName : Option String := none
  implementingOffice : Option String := none
  projectId : Option ProjectId := none
  municipality : Option String := none
  barangay : Option String := none
  district : Option String := none
  allocatedBudget : Option ℚ := none
  obligatedBudget : Option ℚ := none
  budgetUtilized : Option ℚ := none
  balance : Option ℚ := none
  status : Option String := none
  dateStarted : Option Nat := none
  targetDate : Option Nat := none
  completionDate : Option Nat := none
  remarks : Option String := none
  projectTitle : Option String := none
  utilizationRate : Option ℚ := none
  projectAccomplishment : Option ℚ := none
  reportDate : Option Nat := none
  fundSource : Option String := none
deriving DecidableEq, Repr

/-- `ctx.db.patch(breakdownId, {...updates, updatedAt, updatedBy})`:
every supplied field overwrites, every omitted field is untouched; the
`batchId` and creation fields are never part of the update payload. -/
def applyUpdate (b : Breakdown) (u : UpdateItem) (uid : UserId) (now : Nat) : Breakdown :=
  { projectName := u.projectName.getD b.projectName
    implementingOffice := u.implementingOffice.getD b.implementingOffice
    projectId := orO u.projectId b.projectId
    municipality := orO u.municipality b.municipality
    barangay := orO u.barangay b.barangay
    district := orO u.district b.district
    allocatedBudget := orO u.allocatedBudget b.allocatedBudget
    obligatedBudget := orO u.obligatedBudget b.obligatedBudget
    budgetUtilized := orO u.budgetUtilized b.budgetUtilized
    balance := orO u.balance b.balance
    status := orO u.status b.status
    dateStarted := orO u.dateStarted b.dateStarted
    targetDate := orO u.targetDate b.targetDate
    completionDate := orO u.completionDate b.completionDate
    remarks := orO u.remarks b.remarks
    projectTitle := orO u.projectTitle b.projectTitle
    utilizationRate := orO u.utilizationRate b.utilizationRate
    projectAccomplishment := orO u.projectAccomplishment b.projectAccomplishment
    reportDate := orO u.reportDate b.reportDate
    batchId := b.batchId
    fundSource := orO u.fundSource b.fundSource
    createdBy := b.createdBy
    createdAt := b.createdAt
    updatedAt := some now
    updatedBy := some uid }

/-- Insertion into the JS `Set` of affected parents: append when absent,
preserving insertion order. -/
def setAdd (l : List ProjectId) (x : ProjectId) : List ProjectId :=
  if x ∈ l then l else l ++ [x]

/-- Insertion-order deduplication of a parent-id list: the contents of
the JS `Set` built by adding each element in order. -/
def dedupP (l : List ProjectId) : List ProjectId := l.foldl setAdd []

/-- The `for (const projectId of projectsToRecalculate)` loop: invoke
`recalculateProjectMetrics` for each id, aborting on the first store
error. -/
def recalcLoop (db : DB) (pids : List ProjectId) (uid : UserId) (now : Nat) :
    DB × Except String Unit :=
  match pids with
  | [] => (db, .ok ())
  | p :: rest =>
    match recalculateProjectMetrics db p uid now with
    | (db1, .ok _) => recalcLoop db1 rest uid now
    | (db1, .error e) => (db1, .error e)

/-- The `projectsToRecalculate` set of a single update
(`govtProjects.ts` lines 589–599): the old parent when present and
different from the supplied one, then the supplied parent. -/
def updateAffected (oldPid newPid : Option ProjectId) : List ProjectId :=
  let s1 :=
    match oldPid with
    | some op => if newPid ≠ some op then setAdd [] op else []
    | none => []
  match newPid with
  | some np => setAdd s1 np
  | none => s1

/-- `updateProjectBreakdown` (`govtProjects.ts` lines 519–608): load the
previous document, verify a newly supplied parent, patch, log, then
recalculate the affected parents (old parent when present and different,
plus the new parent when supplied). -/
def updateProjectBreakdown (db : DB) (auth : Option UserId) (u : UpdateItem)
    (now : Nat) : DB × Except String BreakdownId :=
  match auth with
  | none => (db, .error "Not authenticated")
  | some uid =>
    match lookupBreakdown db u.breakdownId with
    | none => (db, .error "Breakdown not found")
    | some prev =>
      if u.projectId.any (fun pid => (lookupProject db pid).isNone) then
        (db, .error "Parent project not found")
      else
        match recalcLoop
            (logGovtProjectActivity (patchBreakdown db u.breakdownId (applyUpdate prev u uid now)))
            (updateAffected prev.projectId u.projectId) uid now with
        | (db3, .ok _) => (db3, .ok u.breakdownId)
        | (db3, .error e) => (db3, .error e)

/-- `deleteProjectBreakdown` (`govtProjects.ts` lines 614–651). -/
def deleteProjectBreakdown (db : DB) (auth : Option UserId) (bid : BreakdownId)
    (now : Nat) : DB × Except String Unit :=
  match auth with
  | none => (db, .error "Not authenticated")
  | some uid =>
    match lookupBreakdown db bid with
    | none => (db, .error "Breakdown not found")
    | some b =>
      let db1 := deleteBreakdown db bid
      let db2 := logGovtProjectActivity db1
      match b.projectId with
      | some pid =>
        match recalculateProjectMetrics db2 pid uid now with
        | (db3, .ok _) => (db3, .ok ())
        | (db3, .error e) => (db3, .error e)
      | none => (db2, .ok ())

/-- Common result payload of the three bulk mutations.  `recalcTrace` is
the iteration order of the `affectedProjects` set — the sequence of
parent ids the recalculation service is invoked with — and `rawAffected`
is the per-item tracked parent list before the set deduplicates it. -/
structure BulkOut where
  count : Nat
  ids : List BreakdownId
  batchId : String
  affectedProjects : Nat
  recalcTrace : List ProjectId
  rawAffected : List ProjectId
deriving DecidableEq, Repr

/-- Insert phase of `bulkCreateBreakdowns` (`govtProjects.ts` lines
698–717): insert every item unconditionally and track each supplied
parent id in the affected set. -/
def bulkCreateLoop (db : DB) (uid : UserId) (now : Nat) (items : List BreakdownArgs)
    (ids : List BreakdownId) (affected raw : List ProjectId) :
    DB × List BreakdownId × List ProjectId × List ProjectId :=
  match items with
  | [] => (db, ids, affected, raw)
  | a :: rest =>
    let ins := insertBreakdown db (breakdownOfArgs a uid now)
    match a.projectId with
    | some pid =>
      bulkCreateLoop ins.1 uid now rest (ids ++ [ins.2]) (setAdd affected pid) (raw ++ [pid])
    | none => bulkCreateLoop ins.1 uid now rest (ids ++ [ins.2]) affected raw

/-- `bulkCreateBreakdowns` (`govtProjects.ts` lines 657–747): insert all
items (no parent-existence check), log one batch, then recalculate each
unique affected parent once. -/
def bulkCreateBreakdowns (db : DB) (auth : Option UserId) (items : List BreakdownArgs)
    (now : Nat) : DB × Except String BulkOut :=
  match auth with
  | none => (db, .error "Not authenticated")
  | some uid =>
    let step := bulkCreateLoop db uid now items [] [] []
    let db1 := step.1
    let ids := step.2.1
    let affected := step.2.2.1
    let raw := step.2.2.2
    let logRes := logBulkGovtProjectActivity db1 ids.length
    match recalcLoop logRes.1 affected uid now with
    | (db3, .ok _) =>
      (db3, .ok { count := ids.length, ids := ids, batchId := logRes.2,
                  affectedProjects := affected.length, recalcTrace := affected,
                  rawAffected := raw })
    | (db3, .error e) => (db3, .error e)

/-- Update phase of `bulkUpdateBreakdowns` (`govtProjects.ts` lines
796–830): skip missing documents, track old and new parents, patch. -/
def bulkUpdateLoop (db : DB) (uid : UserId) (now : Nat) (items : List UpdateItem)
    (ids : List BreakdownId) (affected raw : List ProjectId) :
    DB × List BreakdownId × List ProjectId × List ProjectId :=
  match items with
  | [] => (db, ids, affected, raw)
  | u :: rest =>
    match lookupBreakdown db u.breakdownId with
    | none => bulkUpdateLoop db uid now rest ids affected raw
    | some prev =>
      let t1 :=
        match prev.projectId with
        | some op => (setAdd affected op, raw ++ [op])
        | none => (affected, raw)
      let t2 :=
        match u.projectId with
        | some np => (setAdd t1.1 np, t1.2 ++ [np])
        | none => t1
      let db1 := patchBreakdown db u.breakdownId (applyUpdate prev u uid now)
      bulkUpdateLoop db1 uid now rest (ids ++ [u.breakdownId]) t2.1 t2.2

/-- `bulkUpdateBreakdowns` (`govtProjects.ts` lines 753–861). -/
def bulkUpdateBreakdowns (db : DB) (auth : Option UserId) (items : List UpdateItem)
    (now : Nat) : DB × Except String BulkOut :=
  match auth with
  | none => (db, .error "Not authenticated")
  | some uid =>
    let step := bulkUpdateLoop db uid now items [] [] []
    let db1 := step.1
    let ids := step.2.1
    let affected := step.2.2.1
    let raw := step.2.2.2
    let logRes := logBulkGovtProjectActivity db1 ids.length
    match recalcLoop logRes.1 affected uid now with
    | (db3, .ok _) =>
      (db3, .ok { count := ids.length, ids := ids, batchId := logRes.2,
                  affectedProjects := affected.length, recalcTrace := affected,
                  rawAffected := raw })
    | (db3, .error e) => (db3, .error e)

/-- Delete phase of `bulkDeleteBreakdowns` (`govtProjects.ts` lines
885–905): skip missing documents, track the parent, delete. -/
def bulkDeleteLoop (db : DB) (items : List BreakdownId)
    (ids : List BreakdownId) (affected raw : List ProjectId) :
    DB × List BreakdownId × List ProjectId × List ProjectId :=
  match items with
  | [] => (db, ids, affected, raw)
  | bid :: rest =>
    match lookupBreakdown db bid with
    | none => bulkDeleteLoop db rest ids affected raw
    | some b =>
      let t1 :=
        match b.projectId with
        | some pid => (setAdd affected pid, raw ++ [pid])
        | none => (affected, raw)
      bulkDeleteLoop (deleteBreakdown db bid) rest (ids ++ [bid]) t1.1 t1.2

/-- `bulkDeleteBreakdowns` (`govtProjects.ts` lines 867–934). -/
def bulkDeleteBreakdowns (db : DB) (auth : Option UserId) (items : List BreakdownId)
    (now : Nat) : DB × Except String BulkOut :=
  match auth with
  | none => (db, .error "Not authenticated")
  | some uid =>
    let step := bulkDeleteLoop db items [] [] []
    let db1 := step.1
    let ids := step.2.1
    let affected := step.2.2.1
    let raw := step.2.2.2
    let logRes := logBulkGovtProjectActivity db1 ids.length
    match recalcLoop logRes.1 affected uid now with
    | (db3, .ok _) =>
      (db3, .ok { count := ids.length, ids := ids, batchId := logRes.2,
                  affectedProjects := affected.length, recalcTrace := affected,
                  rawAffected := raw })
    | (db3, .error e) => (db3, .error e)

/-! ## Aggregation engine (`convex/lib/aggregationUtils.ts`) -/

/-- One entry of `config.aggregateFields`
(`aggregationUtils.ts` lines 125–129).  The aggregate function is the
string of the TS union `"sum" | "avg" | "min" | "max" | "count"`. -/
structure AggField where
  sourceField : String
  aggregateFunction : String
  targetValueKey : String
deriving DecidableEq, Repr

/-- `AggregationConfig` (`aggregationUtils.ts` lines 117–136). -/
structure AggConfig where
  entityType : String
  aggregationType : String
  groupByFields : List String
  aggregateFields : List AggField
  labelTemplate : Option (Snapshot → String) := none
  hierarchyLevel : Option Nat := none

/-- The numeric values of one source field over the item list
(`items.map(…).filter(typeof v === "number")`). -/
def numericValues (items : List Snapshot) (f : String) : List ℚ :=
  items.filterMap (fun it => (getVal it f).asNum)

/-- The `switch (fieldConfig.aggregateFunction)` of `calculateAggregation`
(`aggregationUtils.ts` lines 165–202): `sum` coerces non-numbers to 0,
`avg`/`min`/`max` are undefined without numeric values, `count` counts
values that are `!= null`. -/
def calcAggregateField (items : List Snapshot) (fc : AggField) : Option ℚ :=
  if fc.aggregateFunction = "sum" then
    some (items.foldl (fun s it => s + (((getVal it fc.sourceField).asNum).getD 0)) 0)
  else if fc.aggregateFunction = "avg" then
    if (numericValues items fc.sourceField).length > 0 then
      some (((numericValues items fc.sourceField).foldl (· + ·) 0)
        / (numericValues items fc.sourceField).length)
    else none
  else if fc.aggregateFunction = "min" then
    match numericValues items fc.sourceField with
    | [] => none
    | v :: rest => some (rest.foldl min v)
  else if fc.aggregateFunction = "max" then
    match numericValues items fc.sourceField with
    | [] => none
    | v :: rest => some (rest.foldl max v)
  else if fc.aggregateFunction = "count" then
    some (((items.filter (fun it => (getVal it fc.sourceField).isNonNull)).length : ℚ))
  else none

/-- The positional slot map: `aggregatedValues[targetValueKey] = result`
for every configured aggregate field. -/
def aggregatedValuesOf (cfg : AggConfig) (items : List Snapshot) :
    List (String × Option ℚ) :=
  cfg.aggregateFields.map (fun fc => (fc.targetValueKey, calcAggregateField items fc))

/-- The named map: `"{function}_{sourceFieldName}"` for every field whose
result is defined; undefined results are omitted. -/
def namedAggregationsOf (cfg : AggConfig) (items : List Snapshot) :
    List (String × ℚ) :=
  cfg.aggregateFields.filterMap (fun fc =>
    (calcAggregateField items fc).map (fun r =>
      (fc.aggregateFunction ++ "_" ++ fc.sourceField, r)))

/-- The grouping keys built from the first item
(`aggregationUtils.ts` lines 155–159): `key{i+1} ↦ items[0][field]`. -/
def groupingKeysOf (cfg : AggConfig) (it0 : Snapshot) : Snapshot :=
  cfg.groupByFields.enum.map (fun p => ("key" ++ toString (p.1 + 1), getVal it0 p.2))

/-- The group-value object handed to the label template
(`aggregationUtils.ts` lines 217–220): keyed by field name. -/
def groupValuesOf (cfg : AggConfig) (it0 : Snapshot) : Snapshot :=
  cfg.groupByFields.map (fun f => (f, getVal it0 f))

/-- A stored `aggregations` document (`convex/schema/aggregations.ts`). -/
structure AggRecord where
  entityType : String
  aggregationType : String
  groupingKeys : Snapshot
  aggregatedValues : List (String × Option ℚ)
  namedAggregations : List (String × ℚ)
  displayLabel : String
  rowCount : Nat
  hierarchyLevel : Option Nat
  createdBy : UserId
  createdAt : Nat
  updatedAt : Nat
  updatedBy : Option UserId := none
deriving DecidableEq, Repr

/-- The `aggregations` table. -/
structure AggDB where
  recs : List (Nat × AggRecord) := []
  nextId : Nat := 0
deriving DecidableEq

/-- The existence query (`aggregationUtils.ts` lines 225–242): index
equality on `(entityType, aggregationType)` refined by a filter requiring
`groupingKeys.key{i+1} == items[0][field]` for every grouping field. -/
def aggMatches (cfg : AggConfig) (it0 : Snapshot) (r : AggRecord) : Bool :=
  r.entityType == cfg.entityType && r.aggregationType == cfg.aggregationType &&
    cfg.groupByFields.enum.all (fun p =>
      getVal r.groupingKeys ("key" ++ toString (p.1 + 1)) == getVal it0 p.2)

/-- `.first()` over the matching documents, in index(creation) order. -/
def findFirstAgg (db : AggDB) (cfg : AggConfig) (it0 : Snapshot) :
    Option (Nat × AggRecord) :=
  db.recs.find? (fun p => aggMatches cfg it0 p.2)

/-- Return payload of `calculateAggregation`
(`{aggregationId, updated: true}` or `{aggregationId, created: true}`). -/
structure AggOut where
  aggregationId : Nat
  created : Bool := false
  updated : Bool := false
deriving DecidableEq, Repr

/-- `displayLabel` (`aggregationUtils.ts` lines 214–222): the optional
template over the resolved group values, defaulting to
`"{entityType} {aggregationType}"`. -/
def displayLabelOf (cfg : AggConfig) (it0 : Snapshot) : String :=
  match cfg.labelTemplate with
  | some tmpl => tmpl (groupValuesOf cfg it0)
  | none => cfg.entityType ++ " " ++ cfg.aggregationType

/-- The in-place patch of an existing aggregation record
(`aggregationUtils.ts` lines 244–253): values, named map, label, row
count and the update audit fields; `createdBy`/`createdAt` and the
grouping keys are untouched. -/
def aggPatch (r : AggRecord) (cfg : AggConfig) (items : List Snapshot) (it0 : Snapshot)
    (uid : UserId) (now : Nat) : AggRecord :=
  { r with aggregatedValues := aggregatedValuesOf cfg items
           namedAggregations := namedAggregationsOf cfg items
           displayLabel := displayLabelOf cfg it0
           rowCount := items.length
           updatedAt := now
           updatedBy := some uid }

/-- The freshly inserted aggregation record
(`aggregationUtils.ts` lines 256–270). -/
def newAggRecord (cfg : AggConfig) (items : List Snapshot) (it0 : Snapshot)
    (uid : UserId) (now : Nat) : AggRecord :=
  { entityType := cfg.entityType
    aggregationType := cfg.aggregationType
    groupingKeys := groupingKeysOf cfg it0
    aggregatedValues := aggregatedValuesOf cfg items
    namedAggregations := namedAggregationsOf cfg items
    displayLabel := displayLabelOf cfg it0
    rowCount := items.length
    hierarchyLevel := cfg.hierarchyLevel
    createdBy := uid
    createdAt := now
    updatedAt := now }

/-- `calculateAggregation` (`aggregationUtils.ts` lines 142–274): throw
on an empty item list; compute grouping keys, both value maps and the
label; then either patch the first matching existing record in place
(original `createdBy`/`createdAt` untouched) or insert one new record —
exactly one write either way. -/
def calculateAggregation (db : AggDB) (items : List Snapshot) (cfg : AggConfig)
    (uid : UserId) (now : Nat) : AggDB × Except String AggOut :=
  match items with
  | [] => (db, .error ("No items found for aggregation: " ++ cfg.entityType))
  | it0 :: rest =>
    match findFirstAgg db cfg it0 with
    | some hit =>
      ({ db with recs := db.recs.map (fun p =>
           if p.1 == hit.1 then (p.1, aggPatch p.2 cfg (it0 :: rest) it0 uid now) else p) },
       .ok { aggregationId := hit.1, updated := true })
    | none =>
      ({ db with
           recs := db.recs ++ [(db.nextId, newAggRecord cfg (it0 :: rest) it0 uid now)]
           nextId := db.nextId + 1 },
       .ok { aggregationId := db.nextId, created := true })

/-- `ctx.db.get` on the aggregations table. -/
def lookupAgg (db : AggDB) (k : Nat) : Option AggRecord :=
  (db.recs.find? (fun p => p.1 == k)).map Prod.snd

instance {m n : Type} [DecidableEq m] [DecidableEq n] : DecidableEq (Except m n) := fun x y =>
  match x, y with
  | .ok a, .ok b =>
    if h : a = b then isTrue (by rw [h]) else isFalse (fun hc => h (Except.ok.inj hc))
  | .error a, .error b =>
    if h : a = b then isTrue (by rw [h]) else isFalse (fun hc => h (Except.error.inj hc))
  | .ok a, .error b => isFalse (fun hc => Except.noConfusion hc)
  | .error a, .ok b => isFalse (fun hc => Except.noConfusion hc)

/-- The composite name `"{function}_{sourceFieldName}"` of an aggregate
field. -/
def aggName (f : AggField) : String := f.aggregateFunction ++ "_" ++ f.sourceField

/-! ## Concrete fixtures used by the witnesses -/

/-- Breakdown-create arguments linking to parent 1 with a given status. -/
def argsW (st : Option String) : BreakdownArgs :=
  { projectName := "X", implementingOffice := "O", projectId := some 1, status := st }

/-- A small store: one user, one parent project (with stale counters),
five breakdowns linked to it with statuses completed / ongoing / absent /
delayed / ongoing. -/
def dbW : DB :=
  { users := [(1, { name := some "A" })],
    projects := [(1, { projectCompleted := 5, projectDelayed := 5, projectsOnTrack := 5,
                       updatedAt := 0 })],
    breakdowns :=
      [(10, breakdownOfArgs (argsW (some "completed")) 1 0),
       (11, breakdownOfArgs (argsW (some "ongoing")) 1 0),
       (12, breakdownOfArgs (argsW none) 1 0),
       (13, breakdownOfArgs (argsW (some "delayed")) 1 0),
       (14, breakdownOfArgs (argsW (some "ongoing")) 1 0)],
    nextId := 15 }

/-- Five bulk-update items, all touching children of the single parent 1. -/
def updsW : List UpdateItem :=
  [{ breakdownId := 10, status := some "completed" },
   { breakdownId := 11, status := some "completed" },
   { breakdownId := 12, status := some "completed" },
   { breakdownId := 13, status := some "completed" },
   { breakdownId := 14, status := some "completed" }]

/-- Two bulk-create items, both linked to parent 1. -/
def createsW : List BreakdownArgs := [argsW (some "ongoing"), argsW none]

/-- Two bulk-delete targets, both children of parent 1. -/
def delsW : List BreakdownId := [10, 12]

/-- A bulk-create item whose parent foreign key references no project. -/
def argsDangling : BreakdownArgs :=
  { projectName := "A", implementingOffice := "B", projectId := some 7 }

/-- Result of `bulkCreateBreakdowns dbW (some 1) createsW 100`. -/
def ocW : BulkOut :=
  { count := 2, ids := [15, 16], batchId := "batch", affectedProjects := 1,
    recalcTrace := [1], rawAffected := [1, 1] }

/-- Result of `bulkUpdateBreakdowns dbW (some 1) updsW 100`. -/
def ouW : BulkOut :=
  { count := 5, ids := [10, 11, 12, 13, 14], batchId := "batch", affectedProjects := 1,
    recalcTrace := [1], rawAffected := [1, 1, 1, 1, 1] }

/-- Result of `bulkDeleteBreakdowns dbW (some 1) delsW 100`. -/
def odW : BulkOut :=
  { count := 2, ids := [10, 12], batchId := "batch", affectedProjects := 1,
    recalcTrace := [1], rawAffected := [1, 1] }

/-- The empty store. -/
def dbE : DB := {}

/-- Previous snapshot of the spec's logging example. -/
def prevW : Snapshot := [("status", .vstr "ongoing")]

/-- New snapshot of the spec's logging example. -/
def nwW : Snapshot := [("status", .vstr "completed")]

/-- Logger config of the spec's logging example. -/
def cfgW : ProjectLogConfig :=
  { action := "updated", previousValues := some prevW, newValues := some nwW }

/-- The sum-over-allocatedBudget aggregate field of the govt-project
subtotal configuration. -/
def fcSumW : AggField :=
  { sourceField := "allocatedBudget", aggregateFunction := "sum", targetValueKey := "value1" }

/-- The avg-over-utilizationRate aggregate field of the govt-project
subtotal configuration. -/
def fcAvgW : AggField :=
  { sourceField := "utilizationRate", aggregateFunction := "avg", targetValueKey := "value5" }

/-- A small govt-project subtotal configuration. -/
def aggCfgW : AggConfig :=
  { entityType := "govtProjects", aggregationType := "subtotal",
    groupByFields := ["projectName", "implementingOffice"],
    aggregateFields := [fcSumW, fcAvgW] }

/-- First row of the spec's aggregation example. -/
def item1W : Snapshot :=
  [("projectName", .vstr "X"), ("implementingOffice", .vstr "Y"), ("allocatedBudget", .vnum 100)]

/-- Second row of the spec's aggregation example. -/
def item2W : Snapshot :=
  [("projectName", .vstr "X"), ("implementingOffice", .vstr "Y"), ("allocatedBudget", .vnum 200)]

/-- The spec's aggregation example: two rows of the same group with
allocated budgets 100 and 200. -/
def itemsW : List Snapshot := [item1W, item2W]

/-- The empty aggregations store. -/
def aggDbE : AggDB := {}

/-- Frame property of a breakdown update: every omitted field keeps its
previous value, `batchId` and the creation metadata are not part of the
update interface at all, and a present parent link is never cleared. -/
def updateFrame (prev nw : Breakdown) (u : UpdateItem) : Prop :=
  (u.projectName = none → nw.projectName = prev.projectName) ∧
  (u.implementingOffice = none → nw.implementingOffice = prev.implementingOffice) ∧
  (u.projectId = none → nw.projectId = prev.projectId) ∧
  (u.municipality = none → nw.municipality = prev.municipality) ∧
  (u.barangay = none → nw.barangay = prev.barangay) ∧
  (u.district = none → nw.district = prev.district) ∧
  (u.allocatedBudget = none → nw.allocatedBudget = prev.allocatedBudget) ∧
  (u.obligatedBudget = none → nw.obligatedBudget = prev.obligatedBudget) ∧
  (u.budgetUtilized = none → nw.budgetUtilized = prev.budgetUtilized) ∧
  (u.balance = none → nw.balance = prev.balance) ∧
  (u.status = none → nw.status = prev.status) ∧
  (u.dateStarted = none → nw.dateStarted = prev.dateStarted) ∧
  (u.targetDate = none → nw.targetDate = prev.targetDate) ∧
  (u.completionDate = none → nw.completionDate = prev.completionDate) ∧
  (u.remarks = none → nw.remarks = prev.remarks) ∧
  (u.projectTitle = none → nw.projectTitle = prev.projectTitle) ∧
  (u.utilizationRate = none → nw.utilizationRate = prev.utilizationRate) ∧
  (u.projectAccomplishment = none → nw.projectAccomplishment = prev.projectAccomplishment) ∧
  (u.reportDate = none → nw.reportDate = prev.reportDate) ∧
  (u.fundSource = none → nw.fundSource = prev.fundSource) ∧
  nw.batchId = prev.batchId ∧ nw.createdBy = prev.createdBy ∧ nw.createdAt = prev.createdAt ∧
  (∀ p, prev.projectId = some p → ∃ q, nw.projectId = some q)

/-! ## General lemmas about keyed association lists -/

lemma find?_map_replace {α : Type} (l : List (Nat × α)) (k : Nat) (f : α → α) :
    ((l.map (fun p => if p.1 == k then (p.1, f p.2) else p)).find? (fun p => p.1 == k))
      = (l.find? (fun p => p.1 == k)).map (fun p => (p.1, f p.2)) := by
  induction l with
  | nil => rfl
  | cons a t ih =>
    by_cases h : a.1 = k
    · rw [List.map_cons, if_pos (by simpa using h)]
      rw [List.find?_cons_of_pos _ (by simpa using h), List.find?_cons_of_pos _ (by simpa using h)]
      rfl
    · rw [List.map_cons, if_neg (by simpa using h)]
      rw [List.find?_cons_of_neg _ (by simpa using h), List.find?_cons_of_neg _ (by simpa using h)]
      exact ih

lemma find?_map_replace_ne {α : Type} (l : List (Nat × α)) (k rid : Nat) (hk : k ≠ rid)
    (f : α → α) :
    ((l.map (fun p => if p.1 == rid then (p.1, f p.2) else p)).find? (fun p => p.1 == k))
      = l.find? (fun p => p.1 == k) := by
  induction l with
  | nil => rfl
  | cons a t ih =>
    by_cases h : a.1 = rid
    · rw [List.map_cons, if_pos (by simpa using h)]
      rw [List.find?_cons_of_neg _ (by simp [h, hk.symm]),
          List.find?_cons_of_neg _ (by simp [h, hk.symm])]
      exact ih
    · rw [List.map_cons, if_neg (by simpa using h)]
      by_cases h2 : a.1 = k
      · rw [List.find?_cons_of_pos _ (by simpa using h2), List.find?_cons_of_pos _ (by simpa using h2)]
      · rw [List.find?_cons_of_neg _ (by simpa using h2), List.find?_cons_of_neg _ (by simpa using h2)]
        exact ih

lemma find?_map_pointwise {α : Type} (l : List α) (p : α → Bool) (f : α → α) (a : α)
    (hp : ∀ x, p (f x) = p x) (h : l.find? p = some a) :
    (l.map f).find? p = some (f a) := by
  induction l with
  | nil => simp at h
  | cons x t ih =>
    by_cases hx : p x = true
    · rw [List.find?_cons_of_pos _ hx] at h
      rw [List.map_cons, List.find?_cons_of_pos _ (by rw [hp]; exact hx)]
      injection h with h
      rw [h]
    · rw [List.find?_cons_of_neg _ (by simpa using hx)] at h
      rw [List.map_cons, List.find?_cons_of_neg _ (by rw [hp]; simpa using hx)]
      exact ih h

lemma find?_map_pointwise_none {α : Type} (l : List α) (p : α → Bool) (f : α → α)
    (hp : ∀ x, p (f x) = p x) (h : l.find? p = none) :
    (l.map f).find? p = none := by
  induction l with
  | nil => rfl
  | cons x t ih =>
    by_cases hx : p x = true
    · rw [List.find?_cons_of_pos _ hx] at h; exact absurd h (by simp)
    · rw [List.find?_cons_of_neg _ (by simpa using hx)] at h
      rw [List.map_cons, List.find?_cons_of_neg _ (by rw [hp]; simpa using hx)]
      exact ih h

lemma find?_keyed_of_nodup {α : Type} (l : List (Nat × α)) (k : Nat) (v : α)
    (hnd : (l.map Prod.fst).Nodup) (hmem : (k, v) ∈ l) :
    l.find? (fun p => p.1 == k) = some (k, v) := by
  induction l with
  | nil => simp at hmem
  | cons a t ih =>
    rcases List.mem_cons.1 hmem with h | h
    · rw [← h]; exact List.find?_cons_of_pos _ (by simp)
    · have hnd' : a.1 ∉ t.map Prod.fst ∧ (t.map Prod.fst).Nodup := by
        rw [List.map_cons, List.nodup_cons] at hnd
        exact hnd
      have hk : k ∈ t.map Prod.fst := List.mem_map.2 ⟨(k, v), h, rfl⟩
      have ha : a.1 ≠ k := fun hak => hnd'.1 (hak ▸ hk)
      rw [List.find?_cons_of_neg _ (by simpa using ha)]
      exact ih hnd'.2 h

/-! ## Lemmas about the affected-parents set -/

lemma mem_setAdd (l : List ProjectId) (x y : ProjectId) :
    y ∈ setAdd l x ↔ y ∈ l ∨ y = x := by
  unfold setAdd
  by_cases h : x ∈ l
  · rw [if_pos h]
    constructor
    · exact fun hy => Or.inl hy
    · rintro (hy | rfl) <;> assumption
  · rw [if_neg h]; simp

lemma nodup_setAdd (l : List ProjectId) (x : ProjectId) (h : l.Nodup) :
    (setAdd l x).Nodup := by
  unfold setAdd
  by_cases hx : x ∈ l
  · rwa [if_pos hx]
  · rw [if_neg hx]; simp [List.nodup_append, h, hx]

lemma mem_foldl_setAdd (δ : List ProjectId) :
    ∀ (A : List ProjectId) (y : ProjectId), y ∈ δ.foldl setAdd A ↔ y ∈ A ∨ y ∈ δ := by
  induction δ with
  | nil => simp
  | cons x t ih =>
    intro A y
    rw [List.foldl_cons, ih, mem_setAdd]
    simp only [List.mem_cons]
    tauto

lemma nodup_foldl_setAdd (δ : List ProjectId) :
    ∀ A : List ProjectId, A.Nodup → (δ.foldl setAdd A).Nodup := by
  induction δ with
  | nil => exact fun A h => h
  | cons x t ih => exact fun A h => ih _ (nodup_setAdd A x h)

lemma dedupP_nodup (l : List ProjectId) : (dedupP l).Nodup :=
  nodup_foldl_setAdd l [] List.nodup_nil

lemma mem_dedupP (l : List ProjectId) (y : ProjectId) : y ∈ dedupP l ↔ y ∈ l := by
  rw [dedupP, mem_foldl_setAdd]; simp

/-! ## Lemmas about the status buckets -/

lemma statusBuckets_foldl (bs : List Breakdown) :
    ∀ acc : Buckets,
      bs.foldl bucketStep acc =
        ⟨acc.completed + bs.countP (fun b => b.status == some "completed"),
         acc.delayed + bs.countP (fun b => b.status == some "delayed"),
         acc.onTrack + bs.countP (fun b => b.status == some "ongoing")⟩ := by
  induction bs with
  | nil => intro acc; simp
  | cons b t ih =>
    intro acc
    rw [List.foldl_cons, ih]
    unfold bucketStep
    by_cases h1 : b.status = some "completed"
    · simp only [List.countP_cons, h1, if_pos rfl]
      simp only [Buckets.mk.injEq]
      refine ⟨?_, ?_, ?_⟩ <;> simp <;> omega
    · by_cases h2 : b.status = some "delayed"
      · rw [if_neg h1, if_pos h2]
        simp only [List.countP_cons, h2]
        simp only [Buckets.mk.injEq]
        refine ⟨?_, ?_, ?_⟩ <;> simp [h1] <;> omega
      · by_cases h3 : b.status = some "ongoing"
        · rw [if_neg h1, if_neg h2, if_pos h3]
          simp only [List.countP_cons, h3]
          simp only [Buckets.mk.injEq]
          refine ⟨?_, ?_, ?_⟩ <;> simp [h1, h2] <;> omega
        · rw [if_neg h1, if_neg h2, if_neg h3]
          simp only [List.countP_cons]
          simp only [Buckets.mk.injEq]
          refine ⟨?_, ?_, ?_⟩ <;> simp [h1, h2, h3]

lemma statusBuckets_eq (bs : List Breakdown) :
    statusBuckets bs =
      ⟨bs.countP (fun b => b.status == some "completed"),
       bs.countP (fun b => b.status == some "delayed"),
       bs.countP (fun b => b.status == some "ongoing")⟩ := by
  rw [statusBuckets, statusBuckets_foldl]
  simp

lemma countP_recognized (bs : List Breakdown) :
    bs.countP (fun b => recognizedStatus b.status)
      = bs.countP (fun b => b.status == some "completed")
        + bs.countP (fun b => b.status == some "delayed")
        + bs.countP (fun b => b.status == some "ongoing") := by
  induction bs with
  | nil => simp
  | cons b t ih =>
    simp only [List.countP_cons, ih]
    by_cases h1 : b.status = some "completed"
    · simp [recognizedStatus, h1]; omega
    · by_cases h2 : b.status = some "delayed"
      · simp [recognizedStatus, h1, h2]; omega
      · by_cases h3 : b.status = some "ongoing"
        · simp [recognizedStatus, h1, h2, h3]; omega
        · simp [recognizedStatus, h1, h2, h3]

lemma lookupProject_map_patch (db : DB) (pid : ProjectId) (f : Project → Project) (P : Project)
    (h : lookupProject db pid = some P) :
    lookupProject
      { db with projects := db.projects.map (fun p => if p.1 == pid then (p.1, f p.2) else p) }
      pid = some (f P) := by
  unfold lookupProject at h ⊢
  rcases Option.map_eq_some'.1 h with ⟨q, hq, hq2⟩
  rw [show ({ db with projects := db.projects.map (fun p => if p.1 == pid then (p.1, f p.2) else p) } : DB).projects
        = db.projects.map (fun p => if p.1 == pid then (p.1, f p.2) else p) from rfl]
  rw [find?_map_replace, hq]
  simp [hq2]

/-- Characterization of a successful `recalculateProjectMetrics` call:
the parent existed, it is patched with the bucket counts of its children,
and the returned result reports exactly those counts. -/
lemma recalc_ok_char (db : DB) (pid : ProjectId) (uid : UserId) (now : Nat)
    (res : RecalcResult)
    (h : (recalculateProjectMetrics db pid uid now).2 = .ok res) :
    ∃ P, lookupProject db pid = some P ∧
      (recalculateProjectMetrics db pid uid now).1
        = { db with projects := db.projects.map (fun p =>
            if p.1 == pid then
              (p.1, recalcPatchProj p.2 (statusBuckets (childBreakdowns db pid)) uid now)
            else p) } ∧
      res = ⟨(childBreakdowns db pid).length,
             (statusBuckets (childBreakdowns db pid)).completed,
             (statusBuckets (childBreakdowns db pid)).delayed,
             (statusBuckets (childBreakdowns db pid)).onTrack⟩ := by
  unfold recalculateProjectMetrics patchProject at h ⊢
  by_cases hemp : (childBreakdowns db pid).isEmpty = true
  · have hnil : childBreakdowns db pid = [] := by simpa using hemp
    rw [hnil] at h ⊢
    cases hl : lookupProject db pid with
    | none => rw [hl] at h; simp at h
    | some P =>
      rw [hl] at h
      simp only [List.isEmpty_nil, if_true] at h ⊢
      refine ⟨P, rfl, rfl, ?_⟩
      simpa [statusBuckets, recalcPatchProj] using h.symm
  · rw [if_neg (by simpa using hemp)] at h ⊢
    cases hl : lookupProject db pid with
    | none => rw [hl] at h; simp at h
    | some P =>
      rw [hl] at h
      refine ⟨P, rfl, rfl, ?_⟩
      simpa [recalcPatchProj] using h.symm

lemma childBreakdowns_projects_irrelevant (db : DB) (ps : List (ProjectId × Project))
    (pid : ProjectId) :
    childBreakdowns { db with projects := ps } pid = childBreakdowns db pid := rfl

/-- Claim C2 (the stored-status enum): the schema's status union and the
mutations' `statusValidator` disagree on every value.  The schema admits
"On-Hold"/"Cancelled"/"Completed", none of which the three-value claim
allows, and rejects the three lowercase values every current mutation
writes. -/
theorem C2_status_enum_divergence :
    schemaStatusAccepts "On-Hold" = true ∧ statusValidatorAccepts "On-Hold" = false ∧
    schemaStatusAccepts "Cancelled" = true ∧ statusValidatorAccepts "Cancelled" = false ∧
    schemaStatusAccepts "completed" = false ∧ statusValidatorAccepts "completed" = true ∧
    schemaStatusAccepts "delayed" = false ∧ statusValidatorAccepts "delayed" = true ∧
    schemaStatusAccepts "ongoing" = false ∧ statusValidatorAccepts "ongoing" = true := by
  decide

/-- Claim C3: `logProjectActivity` returns normally on every input — a
missing actor and a store error while persisting included — and leaves
every collection other than the activity log untouched, so the outcome of
the mutation that called it cannot depend on the logging outcome. -/
theorem C3_logger_never_throws (db : DB) (uid : UserId) (config : ProjectLogConfig)
    (insertFails : Bool) (now : Nat) :
    (logProjectActivity db uid config insertFails now).2 = Except.ok () ∧
    (logProjectActivity db uid config insertFails now).1.projects = db.projects ∧
    (logProjectActivity db uid config insertFails now).1.breakdowns = db.breakdowns ∧
    (logProjectActivity db uid config insertFails now).1.users = db.users := by
  unfold logProjectActivity logProjectActivityBody
  cases h : lookupUser db uid with
  | none => simp
  | some user =>
    by_cases hf : insertFails
    · simp [hf]
    · simp [hf]

lemma countP_children_eq_filter (db : DB) (pid : ProjectId) :
    (childBreakdowns db pid).countP (fun b => recognizedStatus b.status)
      = (db.breakdowns.filter
          (fun p => p.2.projectId == some pid && recognizedStatus p.2.status)).length := by
  unfold childBreakdowns
  rw [List.countP_map, List.countP_eq_length_filter, List.filter_filter]
  congr 1
  refine List.filter_congr ?_
  intro a _
  exact Bool.and_comm _ _

/-- Claim C1: after any successful `recalculateProjectMetrics` call for a
parent `pid`, the parent's stored counter `projectCompleted` equals the
number of its children with status "completed" (likewise for the other
two buckets), and the sum of the three counters equals the number of
breakdown records linked to `pid` whose status is one of the three
recognized values — a child with a missing or unrecognized status lands
in no bucket. -/
theorem C1_recalc_counters_consistent (db : DB) (pid : ProjectId) (uid : UserId)
    (now : Nat) (res : RecalcResult)
    (h : (recalculateProjectMetrics db pid uid now).2 = .ok res) :
    ∃ P, lookupProject (recalculateProjectMetrics db pid uid now).1 pid = some P ∧
      P.projectCompleted
        = (childBreakdowns (recalculateProjectMetrics db pid uid now).1 pid).countP
            (fun b => b.status == some "completed") ∧
      P.projectDelayed
        = (childBreakdowns (recalculateProjectMetrics db pid uid now).1 pid).countP
            (fun b => b.status == some "delayed") ∧
      P.projectsOnTrack
        = (childBreakdowns (recalculateProjectMetrics db pid uid now).1 pid).countP
            (fun b => b.status == some "ongoing") ∧
      P.projectCompleted + P.projectDelayed + P.projectsOnTrack
        = ((recalculateProjectMetrics db pid uid now).1.breakdowns.filter
            (fun p => p.2.projectId == some pid && recognizedStatus p.2.status)).length := by
  obtain ⟨P, hl, hdb, hres⟩ := recalc_ok_char db pid uid now res h
  rw [hdb]
  refine ⟨recalcPatchProj P (statusBuckets (childBreakdowns db pid)) uid now,
          lookupProject_map_patch db pid
            (fun q => recalcPatchProj q (statusBuckets (childBreakdowns db pid)) uid now) P hl,
          ?_, ?_, ?_, ?_⟩
  · show (recalcPatchProj P (statusBuckets (childBreakdowns db pid)) uid now).projectCompleted
        = (childBreakdowns db pid).countP (fun b => b.status == some "completed")
    simp [recalcPatchProj, statusBuckets_eq]
  · show (recalcPatchProj P (statusBuckets (childBreakdowns db pid)) uid now).projectDelayed
        = (childBreakdowns db pid).countP (fun b => b.status == some "delayed")
    simp [recalcPatchProj, statusBuckets_eq]
  · show (recalcPatchProj P (statusBuckets (childBreakdowns db pid)) uid now).projectsOnTrack
        = (childBreakdowns db pid).countP (fun b => b.status == some "ongoing")
    simp [recalcPatchProj, statusBuckets_eq]
  · show (statusBuckets (childBreakdowns db pid)).completed
        + (statusBuckets (childBreakdowns db pid)).delayed
        + (statusBuckets (childBreakdowns db pid)).onTrack
      = (db.breakdowns.filter
          (fun p => p.2.projectId == some pid && recognizedStatus p.2.status)).length
    rw [statusBuckets_eq, ← countP_children_eq_filter]
    exact (countP_recognized (childBreakdowns db pid)).symm

/-- Witness for C1 at the concrete store `dbW`: recalculating parent 1
succeeds with result `⟨5, 1, 1, 2⟩` and the conclusion holds there. -/
theorem C1_witness :
    (recalculateProjectMetrics dbW 1 1 100).2 = .ok ⟨5, 1, 1, 2⟩ ∧
    ∃ P, lookupProject (recalculateProjectMetrics dbW 1 1 100).1 1 = some P ∧
      P.projectCompleted
        = (childBreakdowns (recalculateProjectMetrics dbW 1 1 100).1 1).countP
            (fun b => b.status == some "completed") ∧
      P.projectDelayed
        = (childBreakdowns (recalculateProjectMetrics dbW 1 1 100).1 1).countP
            (fun b => b.status == some "delayed") ∧
      P.projectsOnTrack
        = (childBreakdowns (recalculateProjectMetrics dbW 1 1 100).1 1).countP
            (fun b => b.status == some "ongoing") ∧
      P.projectCompleted + P.projectDelayed + P.projectsOnTrack
        = ((recalculateProjectMetrics dbW 1 1 100).1.breakdowns.filter
            (fun p => p.2.projectId == some 1 && recognizedStatus p.2.status)).length :=
  ⟨by decide, C1_recalc_counters_consistent dbW 1 1 100 ⟨5, 1, 1, 2⟩ (by decide)⟩

/-- Claim C9: `recalculateProjectMetrics` is idempotent — a second call
for the same parent with no intervening breakdown mutation returns the
identical result record and leaves the parent's three counters at the
same values. -/
theorem C9_recalc_idempotent (db : DB) (pid : ProjectId) (uid uid' : UserId)
    (now now' : Nat) (r1 r2 : RecalcResult)
    (h1 : (recalculateProjectMetrics db pid uid now).2 = .ok r1)
    (h2 : (recalculateProjectMetrics
            (recalculateProjectMetrics db pid uid now).1 pid uid' now').2 = .ok r2) :
    r1 = r2 ∧
    ∃ P1 P2,
      lookupProject (recalculateProjectMetrics db pid uid now).1 pid = some P1 ∧
      lookupProject
        (recalculateProjectMetrics
          (recalculateProjectMetrics db pid uid now).1 pid uid' now').1 pid = some P2 ∧
      P2.projectCompleted = P1.projectCompleted ∧
      P2.projectDelayed = P1.projectDelayed ∧
      P2.projectsOnTrack = P1.projectsOnTrack := by
  obtain ⟨P, hl, hdb, hres⟩ := recalc_ok_char db pid uid now r1 h1
  obtain ⟨Q, hl2, hdb2, hres2⟩ := recalc_ok_char _ pid uid' now' r2 h2
  have hchild : childBreakdowns (recalculateProjectMetrics db pid uid now).1 pid
      = childBreakdowns db pid := by
    rw [hdb]
    rfl
  have hP1 : lookupProject (recalculateProjectMetrics db pid uid now).1 pid
      = some (recalcPatchProj P (statusBuckets (childBreakdowns db pid)) uid now) := by
    rw [hdb]
    exact lookupProject_map_patch db pid
      (fun q => recalcPatchProj q (statusBuckets (childBreakdowns db pid)) uid now) P hl
  constructor
  · rw [hres, hres2, hchild]
  · refine ⟨recalcPatchProj P (statusBuckets (childBreakdowns db pid)) uid now,
            recalcPatchProj Q (statusBuckets (childBreakdowns db pid)) uid' now', hP1, ?_, rfl, rfl, rfl⟩
    rw [hdb2, hchild]
    exact lookupProject_map_patch _ pid
      (fun q => recalcPatchProj q (statusBuckets (childBreakdowns db pid)) uid' now') Q hl2

/-- Witness for C9 at the concrete store `dbW`: both consecutive calls
succeed with the result `⟨5, 1, 1, 2⟩` and the conclusion holds there. -/
theorem C9_witness :
    (recalculateProjectMetrics dbW 1 1 100).2 = .ok ⟨5, 1, 1, 2⟩ ∧
    (recalculateProjectMetrics
        (recalculateProjectMetrics dbW 1 1 100).1 1 2 200).2 = .ok ⟨5, 1, 1, 2⟩ ∧
    ((⟨5, 1, 1, 2⟩ : RecalcResult) = ⟨5, 1, 1, 2⟩ ∧
      ∃ P1 P2,
        lookupProject (recalculateProjectMetrics dbW 1 1 100).1 1 = some P1 ∧
        lookupProject
          (recalculateProjectMetrics
            (recalculateProjectMetrics dbW 1 1 100).1 1 2 200).1 1 = some P2 ∧
        P2.projectCompleted = P1.projectCompleted ∧
        P2.projectDelayed = P1.projectDelayed ∧
        P2.projectsOnTrack = P1.projectsOnTrack) :=
  ⟨by decide, by decide, C9_recalc_idempotent dbW 1 1 2 100 200 ⟨5, 1, 1, 2⟩ ⟨5, 1, 1, 2⟩
    (by decide) (by decide)⟩

lemma recalc_fst_breakdowns (db : DB) (pid : ProjectId) (uid : UserId) (now : Nat) :
    (recalculateProjectMetrics db pid uid now).1.breakdowns = db.breakdowns := by
  unfold recalculateProjectMetrics patchProject
  by_cases hemp : (childBreakdowns db pid).isEmpty = true
  · rw [if_pos hemp]
    cases hl : lookupProject db pid <;> rfl
  · rw [if_neg hemp]
    cases hl : lookupProject db pid <;> rfl

lemma recalcLoop_fst_breakdowns (pids : List ProjectId) :
    ∀ (db : DB) (uid : UserId) (now : Nat),
      (recalcLoop db pids uid now).1.breakdowns = db.breakdowns := by
  induction pids with
  | nil => intro db uid now; rfl
  | cons p rest ih =>
    intro db uid now
    unfold recalcLoop
    rcases hr : recalculateProjectMetrics db p uid now with ⟨db1, r⟩
    have hb : db1.breakdowns = db.breakdowns := by
      have h2 := recalc_fst_breakdowns db p uid now
      rw [hr] at h2
      exact h2
    cases r with
    | ok a => rw [ih db1 uid now, hb]
    | error e => exact hb

lemma lookupBreakdown_patch (db : DB) (bid : BreakdownId) (b prev : Breakdown)
    (h : lookupBreakdown db bid = some prev) :
    lookupBreakdown (patchBreakdown db bid b) bid = some b := by
  unfold lookupBreakdown at h
  rcases Option.map_eq_some'.1 h with ⟨q, hq, hq2⟩
  have hkey : (q.1 == bid) = true := by
    have h2 := List.find?_some hq
    simpa using h2
  show ((db.breakdowns.map (fun p => if p.1 == bid then (p.1, b) else p)).find?
      (fun p => p.1 == bid)).map Prod.snd = some b
  rw [find?_map_pointwise db.breakdowns (fun x => x.1 == bid)
      (fun x => if x.1 == bid then (x.1, b) else x) q
      (fun x => by by_cases hx : x.1 = bid <;> simp [hx]) hq]
  simp [hkey]

lemma applyUpdate_frame (prev : Breakdown) (u : UpdateItem) (uid : UserId) (now : Nat) :
    updateFrame prev (applyUpdate prev u uid now) u := by
  unfold updateFrame applyUpdate
  refine ⟨?_, ?_, ?_, ?_, ?_, ?_, ?_, ?_, ?_, ?_, ?_, ?_, ?_, ?_, ?_, ?_, ?_, ?_, ?_, ?_,
          ?_, ?_, ?_, ?_⟩
  case _ => intro h; simp [orO, h]
  case _ => intro h; simp [orO, h]
  case _ => intro h; simp [orO, h]
  case _ => intro h; simp [orO, h]
  case _ => intro h; simp [orO, h]
  case _ => intro h; simp [orO, h]
  case _ => intro h; simp [orO, h]
  case _ => intro h; simp [orO, h]
  case _ => intro h; simp [orO, h]
  case _ => intro h; simp [orO, h]
  case _ => intro h; simp [orO, h]
  case _ => intro h; simp [orO, h]
  case _ => intro h; simp [orO, h]
  case _ => intro h; simp [orO, h]
  case _ => intro h; simp [orO, h]
  case _ => intro h; simp [orO, h]
  case _ => intro h; simp [orO, h]
  case _ => intro h; simp [orO, h]
  case _ => intro h; simp [orO, h]
  case _ => intro h; simp [orO, h]
  case _ => simp
  case _ => simp
  case _ => simp
  case _ =>
    intro p hp
    cases hu : u.projectId with
    | none => exact ⟨p, by simp [orO, hu, hp]⟩
    | some np => exact ⟨np, by simp [orO, hu]⟩

/-- Claim C10: a successful single-item `updateProjectBreakdown` replaces
the stored document by `applyUpdate prev u`, under which every omitted
argument — `projectId` included — keeps its previous value, and no value
of the update interface can turn a present `projectId` into an absent
one: unlinking a child from its parent is impossible through this
operation. -/
theorem C10_update_cannot_unlink (db : DB) (uid : UserId) (u : UpdateItem) (now : Nat)
    (h : (updateProjectBreakdown db (some uid) u now).2.isOk = true) :
    ∃ prev, lookupBreakdown db u.breakdownId = some prev ∧
      lookupBreakdown (updateProjectBreakdown db (some uid) u now).1 u.breakdownId
        = some (applyUpdate prev u uid now) ∧
      updateFrame prev (applyUpdate prev u uid now) u := by
  unfold updateProjectBreakdown at h ⊢
  cases hlb : lookupBreakdown db u.breakdownId with
  | none =>
    rw [hlb] at h
    simp only [] at h
    exact absurd h (by decide)
  | some prev =>
    rw [hlb] at h
    simp only [] at h ⊢
    refine ⟨prev, rfl, ?_, applyUpdate_frame prev u uid now⟩
    by_cases hpc : u.projectId.any (fun pid => (lookupProject db pid).isNone) = true
    · rw [if_pos hpc] at h
      simp only [] at h
      exact absurd h (by decide)
    · rw [if_neg hpc] at h ⊢
      rcases hr : recalcLoop
          (logGovtProjectActivity (patchBreakdown db u.breakdownId (applyUpdate prev u uid now)))
          (updateAffected prev.projectId u.projectId) uid now with ⟨db3, r⟩
      have hb3 : db3.breakdowns
          = (patchBreakdown db u.breakdownId (applyUpdate prev u uid now)).breakdowns := by
        have h2 := recalcLoop_fst_breakdowns (updateAffected prev.projectId u.projectId)
          (logGovtProjectActivity (patchBreakdown db u.breakdownId (applyUpdate prev u uid now)))
          uid now
        rw [hr] at h2
        exact h2
      have hlook : lookupBreakdown db3 u.breakdownId
          = some (applyUpdate prev u uid now) := by
        unfold lookupBreakdown
        rw [hb3]
        exact lookupBreakdown_patch db u.breakdownId (applyUpdate prev u uid now) prev hlb
      cases r with
      | ok a => exact hlook
      | error e =>
        rw [hr] at h
        simp [Except.isOk, Except.toBool] at h

/-- Witness for C10: updating breakdown 10 of `dbW` with only a status
change succeeds and the frame conclusion holds there. -/
theorem C10_witness :
    ∃ prev, lookupBreakdown dbW 10 = some prev ∧
      lookupBreakdown
        (updateProjectBreakdown dbW (some 1) { breakdownId := 10, status := some "delayed" } 100).1
        10 = some (applyUpdate prev { breakdownId := 10, status := some "delayed" } 1 100) ∧
      updateFrame prev (applyUpdate prev { breakdownId := 10, status := some "delayed" } 1 100)
        { breakdownId := 10, status := some "delayed" } :=
  C10_update_cannot_unlink dbW 1 { breakdownId := 10, status := some "delayed" } 100 (by decide)

/-! ## The affected-parent bookkeeping of the bulk loops -/

lemma bulkCreateLoop_spec (items : List BreakdownArgs) :
    ∀ (db : DB) (uid : UserId) (now : Nat) (ids : List BreakdownId)
      (affected raw : List ProjectId),
      (bulkCreateLoop db uid now items ids affected raw).2.2.2
          = raw ++ items.filterMap (fun a => a.projectId) ∧
      (bulkCreateLoop db uid now items ids affected raw).2.2.1
          = (items.filterMap (fun a => a.projectId)).foldl setAdd affected := by
  induction items with
  | nil => intro db uid now ids affected raw; simp [bulkCreateLoop]
  | cons a rest ih =>
    intro db uid now ids affected raw
    unfold bulkCreateLoop
    cases hp : a.projectId with
    | none =>
      simp only [List.filterMap_cons, hp]
      exact ih _ uid now _ affected raw
    | some pid =>
      simp only [List.filterMap_cons, hp]
      obtain ⟨h1, h2⟩ := ih (insertBreakdown db (breakdownOfArgs a uid now)).1 uid now
        (ids ++ [(insertBreakdown db (breakdownOfArgs a uid now)).2])
        (setAdd affected pid) (raw ++ [pid])
      constructor
      · rw [h1]; simp
      · rw [h2]; simp [List.foldl_cons]

lemma bulkUpdateLoop_spec (items : List UpdateItem) :
    ∀ (db : DB) (uid : UserId) (now : Nat) (ids : List BreakdownId)
      (affected raw : List ProjectId),
      ∃ δ, (bulkUpdateLoop db uid now items ids affected raw).2.2.2 = raw ++ δ ∧
           (bulkUpdateLoop db uid now items ids affected raw).2.2.1 = δ.foldl setAdd affected := by
  induction items with
  | nil =>
    intro db uid now ids affected raw
    exact ⟨[], by simp [bulkUpdateLoop], by simp [bulkUpdateLoop]⟩
  | cons u rest ih =>
    intro db uid now ids affected raw
    unfold bulkUpdateLoop
    cases hlb : lookupBreakdown db u.breakdownId with
    | none => exact ih db uid now ids affected raw
    | some prev =>
      simp only []
      cases hop : prev.projectId with
      | none =>
        cases hnp : u.projectId with
        | none =>
          obtain ⟨δ, h1, h2⟩ := ih (patchBreakdown db u.breakdownId (applyUpdate prev u uid now))
            uid now (ids ++ [u.breakdownId]) affected raw
          exact ⟨δ, h1, h2⟩
        | some np =>
          simp only []
          obtain ⟨δ, h1, h2⟩ := ih (patchBreakdown db u.breakdownId (applyUpdate prev u uid now))
            uid now (ids ++ [u.breakdownId]) (setAdd affected np) (raw ++ [np])
          refine ⟨np :: δ, ?_, ?_⟩
          · rw [h1]; simp
          · rw [h2]; simp [List.foldl_cons]
      | some op =>
        cases hnp : u.projectId with
        | none =>
          simp only []
          obtain ⟨δ, h1, h2⟩ := ih (patchBreakdown db u.breakdownId (applyUpdate prev u uid now))
            uid now (ids ++ [u.breakdownId]) (setAdd affected op) (raw ++ [op])
          refine ⟨op :: δ, ?_, ?_⟩
          · rw [h1]; simp
          · rw [h2]; simp [List.foldl_cons]
        | some np =>
          simp only []
          obtain ⟨δ, h1, h2⟩ := ih (patchBreakdown db u.breakdownId (applyUpdate prev u uid now))
            uid now (ids ++ [u.breakdownId]) (setAdd (setAdd affected op) np) (raw ++ [op] ++ [np])
          refine ⟨op :: np :: δ, ?_, ?_⟩
          · rw [h1]; simp
          · rw [h2]; simp [List.foldl_cons]

lemma bulkDeleteLoop_spec (items : List BreakdownId) :
    ∀ (db : DB) (ids : List BreakdownId) (affected raw : List ProjectId),
      ∃ δ, (bulkDeleteLoop db items ids affected raw).2.2.2 = raw ++ δ ∧
           (bulkDeleteLoop db items ids affected raw).2.2.1 = δ.foldl setAdd affected := by
  induction items with
  | nil =>
    intro db ids affected raw
    exact ⟨[], by simp [bulkDeleteLoop], by simp [bulkDeleteLoop]⟩
  | cons bid rest ih =>
    intro db ids affected raw
    unfold bulkDeleteLoop
    cases hlb : lookupBreakdown db bid with
    | none => exact ih db ids affected raw
    | some b =>
      simp only []
      cases hop : b.projectId with
      | none =>
        obtain ⟨δ, h1, h2⟩ := ih (deleteBreakdown db bid) (ids ++ [bid]) affected raw
        exact ⟨δ, h1, h2⟩
      | some pid =>
        simp only []
        obtain ⟨δ, h1, h2⟩ := ih (deleteBreakdown db bid) (ids ++ [bid])
          (setAdd affected pid) (raw ++ [pid])
        refine ⟨pid :: δ, ?_, ?_⟩
        · rw [h1]; simp
        · rw [h2]; simp [List.foldl_cons]

/-- Claim C5: every bulk mutation deduplicates the affected parent ids
across the whole batch and invokes the recalculation service exactly once
per unique affected parent: the invocation trace is the insertion-order
deduplication of the per-item tracked parent list, contains no duplicate,
and contains exactly the parents the items touched (for bulk create:
exactly the supplied parent links). -/
theorem C5_bulk_recalc_once_per_parent (db : DB) (uid : UserId)
    (creates : List BreakdownArgs) (updates : List UpdateItem)
    (dels : List BreakdownId) (now : Nat) (oc ou od : BulkOut)
    (hc : (bulkCreateBreakdowns db (some uid) creates now).2 = .ok oc)
    (hu : (bulkUpdateBreakdowns db (some uid) updates now).2 = .ok ou)
    (hd : (bulkDeleteBreakdowns db (some uid) dels now).2 = .ok od) :
    (oc.recalcTrace = dedupP oc.rawAffected ∧ oc.recalcTrace.Nodup ∧
      (∀ p, p ∈ oc.recalcTrace ↔ p ∈ oc.rawAffected) ∧
      oc.rawAffected = creates.filterMap (fun a => a.projectId)) ∧
    (ou.recalcTrace = dedupP ou.rawAffected ∧ ou.recalcTrace.Nodup ∧
      (∀ p, p ∈ ou.recalcTrace ↔ p ∈ ou.rawAffected)) ∧
    (od.recalcTrace = dedupP od.rawAffected ∧ od.recalcTrace.Nodup ∧
      (∀ p, p ∈ od.recalcTrace ↔ p ∈ od.rawAffected)) := by
  refine ⟨?_, ?_, ?_⟩
  · unfold bulkCreateBreakdowns at hc
    simp only [] at hc
    rcases hS : bulkCreateLoop db uid now creates [] [] [] with ⟨db1, ids2, affected, raw⟩
    obtain ⟨hraw, haff⟩ := bulkCreateLoop_spec creates db uid now [] [] []
    rw [hS] at hc hraw haff
    simp only [] at hc hraw haff
    rcases hr : recalcLoop (logBulkGovtProjectActivity db1 ids2.length).1 affected uid now
      with ⟨db3, r⟩
    rw [hr] at hc
    cases r with
    | error e => simp at hc
    | ok a =>
      simp only [] at hc
      have ho := Except.ok.inj hc
      rw [← ho]
      simp only []
      rw [List.nil_append] at hraw
      refine ⟨?_, ?_, ?_, hraw⟩
      · rw [haff, hraw, dedupP]
      · rw [haff]; exact nodup_foldl_setAdd _ [] List.nodup_nil
      · intro p
        rw [haff, hraw, mem_foldl_setAdd]
        simp
  · unfold bulkUpdateBreakdowns at hu
    simp only [] at hu
    rcases hS : bulkUpdateLoop db uid now updates [] [] [] with ⟨db1, ids2, affected, raw⟩
    obtain ⟨δ, hraw, haff⟩ := bulkUpdateLoop_spec updates db uid now [] [] []
    rw [hS] at hu hraw haff
    simp only [] at hu hraw haff
    rcases hr : recalcLoop (logBulkGovtProjectActivity db1 ids2.length).1 affected uid now
      with ⟨db3, r⟩
    rw [hr] at hu
    cases r with
    | error e => simp at hu
    | ok a =>
      simp only [] at hu
      have ho := Except.ok.inj hu
      rw [← ho]
      simp only []
      rw [List.nil_append] at hraw
      subst hraw
      refine ⟨?_, ?_, ?_⟩
      · rw [haff, dedupP]
      · rw [haff]; exact nodup_foldl_setAdd _ [] List.nodup_nil
      · intro p
        rw [haff, mem_foldl_setAdd]
        simp
  · unfold bulkDeleteBreakdowns at hd
    simp only [] at hd
    rcases hS : bulkDeleteLoop db dels [] [] [] with ⟨db1, ids2, affected, raw⟩
    obtain ⟨δ, hraw, haff⟩ := bulkDeleteLoop_spec dels db [] [] []
    rw [hS] at hd hraw haff
    simp only [] at hd hraw haff
    rcases hr : recalcLoop (logBulkGovtProjectActivity db1 ids2.length).1 affected uid now
      with ⟨db3, r⟩
    rw [hr] at hd
    cases r with
    | error e => simp at hd
    | ok a =>
      simp only [] at hd
      have ho := Except.ok.inj hd
      rw [← ho]
      simp only []
      rw [List.nil_append] at hraw
      subst hraw
      refine ⟨?_, ?_, ?_⟩
      · rw [haff, dedupP]
      · rw [haff]; exact nodup_foldl_setAdd _ [] List.nodup_nil
      · intro p
        rw [haff, mem_foldl_setAdd]
        simp

/-- Witness for C5: against `dbW`, bulk-updating five children of the
single parent 1 issues exactly one recalculation (trace `[1]`, raw
tracked list `[1,1,1,1,1]`), and the dedup conclusion holds for all
three bulk operations. -/
theorem C5_witness :
    (bulkCreateBreakdowns dbW (some 1) createsW 100).2 = .ok ocW ∧
    (bulkUpdateBreakdowns dbW (some 1) updsW 100).2 = .ok ouW ∧
    (bulkDeleteBreakdowns dbW (some 1) delsW 100).2 = .ok odW ∧
    ouW.recalcTrace = [1] ∧ ouW.rawAffected = [1, 1, 1, 1, 1] ∧
    ((ocW.recalcTrace = dedupP ocW.rawAffected ∧ ocW.recalcTrace.Nodup ∧
        (∀ p, p ∈ ocW.recalcTrace ↔ p ∈ ocW.rawAffected) ∧
        ocW.rawAffected = createsW.filterMap (fun a => a.projectId)) ∧
      (ouW.recalcTrace = dedupP ouW.rawAffected ∧ ouW.recalcTrace.Nodup ∧
        (∀ p, p ∈ ouW.recalcTrace ↔ p ∈ ouW.rawAffected)) ∧
      (odW.recalcTrace = dedupP odW.rawAffected ∧ odW.recalcTrace.Nodup ∧
        (∀ p, p ∈ odW.recalcTrace ↔ p ∈ odW.rawAffected))) :=
  ⟨by decide, by decide, by decide, by decide, by decide,
   C5_bulk_recalc_once_per_parent dbW 1 createsW updsW delsW 100 ocW ouW odW
     (by decide) (by decide) (by decide)⟩

lemma bulkCreateLoop_breakdowns (items : List BreakdownArgs) :
    ∀ (db : DB) (uid : UserId) (now : Nat) (ids : List BreakdownId)
      (affected raw : List ProjectId),
      (bulkCreateLoop db uid now items ids affected raw).1.breakdowns.length
        = db.breakdowns.length + items.length := by
  induction items with
  | nil => intro db uid now ids affected raw; simp [bulkCreateLoop]
  | cons a rest ih =>
    intro db uid now ids affected raw
    unfold bulkCreateLoop
    cases hp : a.projectId with
    | none =>
      simp only []
      rw [ih]
      simp [insertBreakdown]
      omega
    | some pid =>
      simp only []
      rw [ih]
      simp [insertBreakdown]
      omega

/-- Claim C8 (counterexample): a bulk create whose single item carries a
dangling parent link does fail (from the later recalculation patch), but
the child row for that item HAS been inserted — refuting the claim that
the item fails the single-create's NotFound check with no row inserted. -/
theorem C8_counterexample :
    (bulkCreateBreakdowns dbE (some 1) [argsDangling] 5).2.isOk = false ∧
    (bulkCreateBreakdowns dbE (some 1) [argsDangling] 5).1.breakdowns.length = 1 ∧
    lookupBreakdown (bulkCreateBreakdowns dbE (some 1) [argsDangling] 5).1 0
      = some (breakdownOfArgs argsDangling 1 5) ∧
    (breakdownOfArgs argsDangling 1 5).projectId = some 7 ∧
    lookupProject dbE 7 = none := by decide

/-- Claim C8 (amended): `bulkCreateBreakdowns` performs no per-item
parent-existence check — its insert phase inserts every item's row, a
dangling parent included, the failure arising only later from the
recalculation step — whereas the single-item create rejects a dangling
parent with "Parent project not found" before inserting anything. -/
theorem C8_bulk_create_inserts_unchecked (db : DB) (uid : UserId)
    (items : List BreakdownArgs) (now : Nat) :
    (bulkCreateBreakdowns db (some uid) items now).1.breakdowns.length
        = db.breakdowns.length + items.length ∧
    (∀ args pid, args.projectId = some pid → lookupProject db pid = none →
        createProjectBreakdown db (some uid) args now
          = (db, .error "Parent project not found")) := by
  constructor
  · unfold bulkCreateBreakdowns
    simp only []
    rcases hS : bulkCreateLoop db uid now items [] [] [] with ⟨db1, ids2, affected, raw⟩
    have hlen := bulkCreateLoop_breakdowns items db uid now [] [] []
    rw [hS] at hlen
    simp only [] at hlen
    rcases hr : recalcLoop (logBulkGovtProjectActivity db1 ids2.length).1 affected uid now
      with ⟨db3, r⟩
    have hb := recalcLoop_fst_breakdowns affected
      (logBulkGovtProjectActivity db1 ids2.length).1 uid now
    rw [hr] at hb
    cases r with
    | ok a =>
      simp only []
      rw [show db3.breakdowns = db1.breakdowns from hb]
      exact hlen
    | error e =>
      simp only []
      rw [show db3.breakdowns = db1.breakdowns from hb]
      exact hlen
  · intro args pid hargs hlp
    unfold createProjectBreakdown
    simp only []
    have hcond : args.projectId.any (fun p => (lookupProject db p).isNone) = true := by
      rw [hargs]
      simp [hlp]
    rw [if_pos hcond]

/-- Witness for the amended C8 at the empty store: the dangling single
item is still inserted by the bulk create, while the single-item create
refuses it up front. -/
theorem C8_witness :
    (bulkCreateBreakdowns dbE (some 1) [argsDangling] 5).1.breakdowns.length
        = dbE.breakdowns.length + [argsDangling].length ∧
    createProjectBreakdown dbE (some 1) argsDangling 5
      = (dbE, .error "Parent project not found") :=
  ⟨(C8_bulk_create_inserts_unchecked dbE 1 [argsDangling] 5).1,
   (C8_bulk_create_inserts_unchecked dbE 1 [argsDangling] 5).2 argsDangling 7 rfl (by decide)⟩

/-! ## The changed-fields diff -/

lemma mem_dedupFirst (l : List String) (k : String) : k ∈ dedupFirst l ↔ k ∈ l := by
  induction l with
  | nil => simp [dedupFirst]
  | cons x rest ih =>
    unfold dedupFirst
    by_cases hk : k = x
    · simp [hk]
    · simp only [List.mem_cons, List.mem_filter]
      constructor
      · rintro (h | ⟨h, _⟩)
        · exact Or.inl h
        · exact Or.inr (ih.1 h)
      · rintro (h | h)
        · exact Or.inl h
        · exact Or.inr ⟨ih.2 h, by simpa using hk⟩

lemma mem_computeChangedFields (prev nw : Snapshot) (k : String) :
    k ∈ computeChangedFields prev nw ↔
      (k ∈ keysOf prev ∨ k ∈ keysOf nw) ∧ k ∉ systemFields ∧
        jsonStringify (getVal prev k) ≠ jsonStringify (getVal nw k) := by
  unfold computeChangedFields
  rw [List.mem_filter, mem_dedupFirst, List.mem_append]
  simp

/-- Claim C7: for an "updated" logger call carrying both snapshots,
the stored activity record's `changedFields` is exactly the set of keys
of the union of both snapshots' key sets that are not system fields and
whose `JSON.stringify` serializations differ — identical serializations
count as equal — and whenever "status" is among them the stored
`changeSummary` carries `statusChanged = true`. -/
theorem C7_changed_fields_diff (db : DB) (uid : UserId) (prev nw : Snapshot)
    (pidc : Option ProjectId) (proj : Option Snapshot) (reason : Option String)
    (now : Nat) (u : User) (hu : lookupUser db uid = some u) :
    ∃ entry,
      (logProjectActivity db uid
          { action := "updated", projectId := pidc, project := proj,
            previousValues := some prev, newValues := some nw, reason := reason }
          false now).1.activities = db.activities ++ [entry] ∧
      (∀ k, k ∈ entry.changedFields.getD [] ↔
        (k ∈ keysOf prev ∨ k ∈ keysOf nw) ∧ k ∉ systemFields ∧
          jsonStringify (getVal prev k) ≠ jsonStringify (getVal nw k)) ∧
      ("status" ∈ entry.changedFields.getD [] →
        ∃ cs, entry.changeSummary = some cs ∧ cs.statusChanged = true) := by
  unfold logProjectActivity logProjectActivityBody
  rw [hu]
  simp only []
  have hdiff : diffOf
      { action := "updated", projectId := pidc, project := proj,
        previousValues := some prev, newValues := some nw, reason := reason }
      = (computeChangedFields prev nw,
         buildChangeSummary (computeChangedFields prev nw) prev nw) := rfl
  rw [hdiff]
  simp only []
  refine ⟨_, rfl, ?_, ?_⟩
  · intro k
    by_cases hlen : (computeChangedFields prev nw).length > 0
    · rw [if_pos hlen]
      exact mem_computeChangedFields prev nw k
    · rw [if_neg hlen]
      have hnil : computeChangedFields prev nw = [] := by
        rcases h : computeChangedFields prev nw with _ | ⟨a, t⟩
        · rfl
        · rw [h] at hlen; simp at hlen
      rw [← mem_computeChangedFields prev nw k, hnil]
      simp
  · intro hs
    by_cases hlen : (computeChangedFields prev nw).length > 0
    · rw [if_pos hlen] at hs
      simp only [Option.getD_some] at hs
      have hflag : (buildChangeSummary (computeChangedFields prev nw) prev nw).statusChanged
          = true := by
        unfold buildChangeSummary
        exact List.elem_eq_true_of_mem hs
      have hne : (buildChangeSummary (computeChangedFields prev nw) prev nw).nonEmpty = true := by
        unfold ChangeSummary.nonEmpty
        rw [hflag]
        simp
      rw [if_pos hne]
      exact ⟨_, rfl, hflag⟩
    · rw [if_neg hlen] at hs
      simp at hs

/-- Witness for C7: logging the update `{status: "ongoing"} →
{status: "completed"}` against `dbW` stores a record whose
`changedFields` contains "status" and whose summary flags
`statusChanged`. -/
theorem C7_witness :
    ∃ entry, (logProjectActivity dbW 1 cfgW false 99).1.activities
        = dbW.activities ++ [entry] ∧
      "status" ∈ entry.changedFields.getD [] ∧
      ∃ cs, entry.changeSummary = some cs ∧ cs.statusChanged = true := by
  obtain ⟨entry, h1, h2, h3⟩ :=
    C7_changed_fields_diff dbW 1 prevW nwW none none none 99
      { name := some "A" } (by decide)
  have hs : "status" ∈ entry.changedFields.getD [] := (h2 "status").mpr (by decide)
  exact ⟨entry, h1, hs, h3 hs⟩

/-! ## The aggregate functions -/

lemma foldl_add_map (f : Snapshot → ℚ) (l : List Snapshot) :
    ∀ init : ℚ, l.foldl (fun s it => s + f it) init = init + (l.map f).sum := by
  induction l with
  | nil => intro init; simp
  | cons a t ih =>
    intro init
    rw [List.foldl_cons, ih, List.map_cons, List.sum_cons]
    ring

lemma foldl_add_id (l : List ℚ) : ∀ init : ℚ, l.foldl (· + ·) init = init + l.sum := by
  induction l with
  | nil => intro init; simp
  | cons a t ih =>
    intro init
    rw [List.foldl_cons, ih, List.sum_cons]
    ring

lemma foldl_min_mem (l : List ℚ) : ∀ v : ℚ, l.foldl min v ∈ v :: l := by
  induction l with
  | nil => intro v; simp
  | cons x t ih =>
    intro v
    rw [List.foldl_cons]
    rcases List.mem_cons.1 (ih (min v x)) with h | h
    · rw [h]
      rcases min_choice v x with h2 | h2 <;> rw [h2] <;> simp
    · simp [h]

lemma foldl_min_le (l : List ℚ) : ∀ v x : ℚ, x ∈ v :: l → l.foldl min v ≤ x := by
  induction l with
  | nil =>
    intro v x hx
    rw [List.mem_singleton] at hx
    rw [hx, List.foldl_nil]
  | cons y t ih =>
    intro v x hx
    rw [List.foldl_cons]
    have hself : t.foldl min (min v y) ≤ min v y :=
      ih (min v y) (min v y) (List.mem_cons_self _ _)
    rcases List.mem_cons.1 hx with h | h
    · rw [h]
      exact le_trans hself (min_le_left _ _)
    · rcases List.mem_cons.1 h with h2 | h2
      · rw [h2]
        exact le_trans hself (min_le_right _ _)
      · exact ih (min v y) x (List.mem_cons_of_mem _ h2)

lemma foldl_max_mem (l : List ℚ) : ∀ v : ℚ, l.foldl max v ∈ v :: l := by
  induction l with
  | nil => intro v; simp
  | cons x t ih =>
    intro v
    rw [List.foldl_cons]
    rcases List.mem_cons.1 (ih (max v x)) with h | h
    · rw [h]
      rcases max_choice v x with h2 | h2 <;> rw [h2] <;> simp
    · simp [h]

lemma foldl_max_ge (l : List ℚ) : ∀ v x : ℚ, x ∈ v :: l → x ≤ l.foldl max v := by
  induction l with
  | nil =>
    intro v x hx
    rw [List.mem_singleton] at hx
    rw [hx, List.foldl_nil]
  | cons y t ih =>
    intro v x hx
    rw [List.foldl_cons]
    have hself : max v y ≤ t.foldl max (max v y) :=
      ih (max v y) (max v y) (List.mem_cons_self _ _)
    rcases List.mem_cons.1 hx with h | h
    · rw [h]
      exact le_trans (le_max_left _ _) hself
    · rcases List.mem_cons.1 h with h2 | h2
      · rw [h2]
        exact le_trans (le_max_right _ _) hself
      · exact ih (max v y) x (List.mem_cons_of_mem _ h2)

lemma lookup_map_pair {α β : Type} (l : List α) (key : α → String) (val : α → β) (x : α)
    (hnd : (l.map key).Nodup) (hx : x ∈ l) :
    (l.map (fun a => (key a, val a))).lookup (key x) = some (val x) := by
  induction l with
  | nil => simp at hx
  | cons a t ih =>
    have hnd' : key a ∉ t.map key ∧ (t.map key).Nodup := by
      rw [List.map_cons, List.nodup_cons] at hnd
      exact hnd
    rcases List.mem_cons.1 hx with h | h
    · subst h
      simp [List.lookup]
    · have hne : (key x == key a) = false := by
        have hm : key x ∈ t.map key := List.mem_map.2 ⟨x, h, rfl⟩
        by_cases he : key x = key a
        · exact absurd (he ▸ hm) hnd'.1
        · simpa using he
      rw [List.map_cons,
          show ((key a, val a) :: t.map (fun a => (key a, val a))).lookup (key x)
            = (t.map (fun a => (key a, val a))).lookup (key x) by simp [List.lookup, hne]]
      exact ih hnd'.2 h

lemma lookup_filterMap_named_none (t : List AggField) (items : List Snapshot) (k : String)
    (hk : ∀ f ∈ t, aggName f ≠ k) :
    (t.filterMap (fun f => (calcAggregateField items f).map
        (fun r => (aggName f, r)))).lookup k = none := by
  induction t with
  | nil => rfl
  | cons b t2 ih =>
    rw [List.filterMap_cons]
    cases hc : calcAggregateField items b with
    | none =>
      simp only [Option.map_none']
      exact ih (fun f hf => hk f (List.mem_cons_of_mem _ hf))
    | some r =>
      simp only [Option.map_some']
      have hne : (k == aggName b) = false := by
        have hb := hk b (List.mem_cons_self _ _)
        by_cases he : k = aggName b
        · exact absurd he.symm hb
        · simpa using he
      rw [show (((aggName b, r) :: t2.filterMap (fun f => (calcAggregateField items f).map
              (fun r => (aggName f, r)))).lookup k)
            = (t2.filterMap (fun f => (calcAggregateField items f).map
                (fun r => (aggName f, r)))).lookup k by simp [List.lookup, hne]]
      exact ih (fun f hf => hk f (List.mem_cons_of_mem _ hf))

lemma lookup_filterMap_named (l : List AggField) (items : List Snapshot)
    (hn : (l.map aggName).Nodup) (fc : AggField) (hfc : fc ∈ l) :
    (l.filterMap (fun f => (calcAggregateField items f).map
        (fun r => (aggName f, r)))).lookup (aggName fc) = calcAggregateField items fc := by
  induction l with
  | nil => simp at hfc
  | cons a t ih =>
    have hnd' : aggName a ∉ t.map aggName ∧ (t.map aggName).Nodup := by
      rw [List.map_cons, List.nodup_cons] at hn
      exact hn
    rw [List.filterMap_cons]
    rcases List.mem_cons.1 hfc with h | h
    · subst h
      cases hc : calcAggregateField items fc with
      | none =>
        simp only [Option.map_none']
        refine lookup_filterMap_named_none t items (aggName fc) ?_
        intro f hf he
        exact hnd'.1 (he ▸ List.mem_map.2 ⟨f, hf, rfl⟩)
      | some r => simp [List.lookup]
    · have hne : (aggName fc == aggName a) = false := by
        have hm : aggName fc ∈ t.map aggName := List.mem_map.2 ⟨fc, h, rfl⟩
        by_cases he : aggName fc = aggName a
        · exact absurd (he ▸ hm) hnd'.1
        · simpa using he
      cases hc : calcAggregateField items a with
      | none =>
        simp only [Option.map_none']
        exact ih hnd'.2 h
      | some r =>
        simp only [Option.map_some']
        rw [show (((aggName a, r) :: t.filterMap (fun f => (calcAggregateField items f).map
                (fun r => (aggName f, r)))).lookup (aggName fc))
              = (t.filterMap (fun f => (calcAggregateField items f).map
                  (fun r => (aggName f, r)))).lookup (aggName fc) by simp [List.lookup, hne]]
        exact ih hnd'.2 h

lemma calcAggregateField_sum (items : List Snapshot) (fc : AggField)
    (h : fc.aggregateFunction = "sum") :
    calcAggregateField items fc
      = some (items.foldl (fun s it => s + (((getVal it fc.sourceField).asNum).getD 0)) 0) := by
  unfold calcAggregateField
  rw [h, if_pos rfl]

lemma calcAggregateField_avg (items : List Snapshot) (fc : AggField)
    (h : fc.aggregateFunction = "avg") :
    calcAggregateField items fc
      = if (numericValues items fc.sourceField).length > 0 then
          some (((numericValues items fc.sourceField).foldl (· + ·) 0)
            / ((numericValues items fc.sourceField).length : ℚ))
        else none := by
  unfold calcAggregateField
  rw [h, if_neg (by decide), if_pos rfl]

lemma calcAggregateField_min (items : List Snapshot) (fc : AggField)
    (h : fc.aggregateFunction = "min") :
    calcAggregateField items fc
      = match numericValues items fc.sourceField with
        | [] => none
        | v :: rest => some (rest.foldl min v) := by
  unfold calcAggregateField
  rw [h, if_neg (by decide), if_neg (by decide), if_pos rfl]

lemma calcAggregateField_max (items : List Snapshot) (fc : AggField)
    (h : fc.aggregateFunction = "max") :
    calcAggregateField items fc
      = match numericValues items fc.sourceField with
        | [] => none
        | v :: rest => some (rest.foldl max v) := by
  unfold calcAggregateField
  rw [h, if_neg (by decide), if_neg (by decide), if_neg (by decide), if_pos rfl]

lemma calcAggregateField_count (items : List Snapshot) (fc : AggField)
    (h : fc.aggregateFunction = "count") :
    calcAggregateField items fc
      = some (((items.filter (fun it => (getVal it fc.sourceField).isNonNull)).length : ℚ)) := by
  unfold calcAggregateField
  rw [h, if_neg (by decide), if_neg (by decide), if_neg (by decide), if_neg (by decide),
      if_pos rfl]

/-- Claim C6: for a non-empty item list, each aggregate function computes
exactly what the specification states — `sum` coerces non-numeric and
missing values to 0, `avg` is the mean over the numeric values only and
undefined without any, `min`/`max` are the numeric extrema and undefined
without numeric values, `count` counts the non-null values regardless of
type — and each result is stored under its positional target key, and
under the name `"{function}_{sourceFieldName}"` in the named map with
undefined results omitted (the named lookup below returns exactly the
optional result). -/
theorem C6_aggregate_functions (items : List Snapshot) (cfg : AggConfig) (fc : AggField)
    (hne : items ≠ [])
    (hkeys : (cfg.aggregateFields.map (fun f => f.targetValueKey)).Nodup)
    (hnames : (cfg.aggregateFields.map aggName).Nodup)
    (hmem : fc ∈ cfg.aggregateFields) :
    (fc.aggregateFunction = "sum" →
      calcAggregateField items fc
        = some ((items.map (fun it => ((getVal it fc.sourceField).asNum).getD 0)).sum)) ∧
    (fc.aggregateFunction = "avg" →
      (numericValues items fc.sourceField = [] → calcAggregateField items fc = none) ∧
      (numericValues items fc.sourceField ≠ [] →
        calcAggregateField items fc
          = some ((numericValues items fc.sourceField).sum
              / (numericValues items fc.sourceField).length))) ∧
    (fc.aggregateFunction = "min" →
      (calcAggregateField items fc = none ↔ numericValues items fc.sourceField = []) ∧
      (∀ m, calcAggregateField items fc = some m →
        m ∈ numericValues items fc.sourceField ∧
          ∀ x ∈ numericValues items fc.sourceField, m ≤ x)) ∧
    (fc.aggregateFunction = "max" →
      (calcAggregateField items fc = none ↔ numericValues items fc.sourceField = []) ∧
      (∀ m, calcAggregateField items fc = some m →
        m ∈ numericValues items fc.sourceField ∧
          ∀ x ∈ numericValues items fc.sourceField, x ≤ m)) ∧
    (fc.aggregateFunction = "count" →
      calcAggregateField items fc
        = some ((items.countP (fun it => (getVal it fc.sourceField).isNonNull) : ℚ))) ∧
    (aggregatedValuesOf cfg items).lookup fc.targetValueKey
        = some (calcAggregateField items fc) ∧
    (namedAggregationsOf cfg items).lookup (aggName fc) = calcAggregateField items fc := by
  refine ⟨?_, ?_, ?_, ?_, ?_, ?_, ?_⟩
  · intro hfn
    rw [calcAggregateField_sum items fc hfn, foldl_add_map, zero_add]
  · intro hfn
    rw [calcAggregateField_avg items fc hfn]
    constructor
    · intro hv
      simp [hv]
    · intro hv
      have hlen : (numericValues items fc.sourceField).length > 0 :=
        List.length_pos.2 hv
      rw [if_pos hlen, foldl_add_id, zero_add]
  · intro hfn
    rw [calcAggregateField_min items fc hfn]
    cases hv : numericValues items fc.sourceField with
    | nil => simp [hv]
    | cons v rest =>
      constructor
      · simp
      · intro m hm
        simp only [Option.some.injEq] at hm
        rw [← hm]
        exact ⟨foldl_min_mem rest v, fun x hx => foldl_min_le rest v x hx⟩
  · intro hfn
    rw [calcAggregateField_max items fc hfn]
    cases hv : numericValues items fc.sourceField with
    | nil => simp [hv]
    | cons v rest =>
      constructor
      · simp
      · intro m hm
        simp only [Option.some.injEq] at hm
        rw [← hm]
        exact ⟨foldl_max_mem rest v, fun x hx => foldl_max_ge rest v x hx⟩
  · intro hfn
    rw [calcAggregateField_count items fc hfn, List.countP_eq_length_filter]
  · exact lookup_map_pair cfg.aggregateFields (fun f => f.targetValueKey)
      (fun f => calcAggregateField items f) fc hkeys hmem
  · exact lookup_filterMap_named cfg.aggregateFields items hnames fc hmem

/-- Witness for C6 at the spec's example: summing `allocatedBudget` over
the two rows yields 300, the avg field over the absent
`utilizationRate` is undefined and omitted from the named map, and the
general conclusion holds for the sum field. -/
theorem C6_witness :
    calcAggregateField itemsW fcSumW = some 300 ∧
    calcAggregateField itemsW fcAvgW = none ∧
    (namedAggregationsOf aggCfgW itemsW).lookup (aggName fcAvgW) = none ∧
    (calcAggregateField itemsW fcSumW
        = some ((itemsW.map (fun it => ((getVal it fcSumW.sourceField).asNum).getD 0)).sum) ∧
      (aggregatedValuesOf aggCfgW itemsW).lookup fcSumW.targetValueKey
        = some (calcAggregateField itemsW fcSumW) ∧
      (namedAggregationsOf aggCfgW itemsW).lookup (aggName fcSumW)
        = calcAggregateField itemsW fcSumW) :=
  ⟨by
    rw [calcAggregateField_sum itemsW fcSumW rfl]
    norm_num [itemsW, fcSumW, getVal, Value.asNum, List.lookup,
      show ("allocatedBudget" == "projectName") = false from by decide,
      show ("allocatedBudget" == "implementingOffice") = false from by decide,
      show ("allocatedBudget" == "allocatedBudget") = true from by decide],
   by decide, by decide,
   (C6_aggregate_functions itemsW aggCfgW fcSumW (by decide) (by decide) (by decide)
      (by decide)).1 rfl,
   (C6_aggregate_functions itemsW aggCfgW fcSumW (by decide) (by decide) (by decide)
      (by decide)).2.2.2.2.2.1,
   (C6_aggregate_functions itemsW aggCfgW fcSumW (by decide) (by decide) (by decide)
      (by decide)).2.2.2.2.2.2⟩

/-! ## Upsert behaviour of the aggregation engine -/

lemma all_congr_list {α : Type} (l : List α) (p q : α → Bool) (h : ∀ x ∈ l, p x = q x) :
    l.all p = l.all q := by
  induction l with
  | nil => rfl
  | cons a t ih =>
    rw [List.all_cons, List.all_cons, h a (List.mem_cons_self _ _),
        ih (fun x hx => h x (List.mem_cons_of_mem _ hx))]

lemma keyNat_inj (m k : Nat) (hm : m ≤ 6) (hk : k ≤ 6)
    (h : "key" ++ toString m = "key" ++ toString k) : m = k := by
  interval_cases m <;> interval_cases k <;> first | rfl | exact absurd h (by decide)

lemma lookup_enumFrom_keys (it0 : Snapshot) (l : List String) :
    ∀ (n i : Nat) (f : String), n + l.length ≤ 5 → (i, f) ∈ l.enumFrom n →
      ((l.enumFrom n).map (fun p => ("key" ++ toString (p.1 + 1), getVal it0 p.2))).lookup
        ("key" ++ toString (i + 1)) = some (getVal it0 f) := by
  induction l with
  | nil => intro n i f hb hm; simp [List.enumFrom] at hm
  | cons a t ih =>
    intro n i f hb hm
    rw [show (a :: t).enumFrom n = (n, a) :: t.enumFrom (n + 1) from rfl] at hm
    rw [show (a :: t).enumFrom n = (n, a) :: t.enumFrom (n + 1) from rfl, List.map_cons]
    have hb' : (n + 1) + t.length ≤ 5 := by
      simp only [List.length_cons] at hb
      omega
    rcases List.mem_cons.1 hm with h | h
    · have hi : i = n := congrArg Prod.fst h
      have hf : f = a := congrArg Prod.snd h
      rw [hi, hf]
      simp [List.lookup]
    · have hge : n + 1 ≤ i := (List.mem_enumFrom h).1
      have hlt : i < (n + 1) + t.length := (List.mem_enumFrom h).2.1
      have hne : ("key" ++ toString (i + 1) == "key" ++ toString (n + 1)) = false := by
        have hne2 : "key" ++ toString (i + 1) ≠ "key" ++ toString (n + 1) := by
          intro he
          have := keyNat_inj (i + 1) (n + 1) (by omega) (by omega) he
          omega
        simpa using hne2
      rw [show ((("key" ++ toString (n + 1), getVal it0 a)) ::
              (t.enumFrom (n + 1)).map (fun p => ("key" ++ toString (p.1 + 1), getVal it0 p.2))).lookup
              ("key" ++ toString (i + 1))
            = ((t.enumFrom (n + 1)).map
                (fun p => ("key" ++ toString (p.1 + 1), getVal it0 p.2))).lookup
                ("key" ++ toString (i + 1)) by simp [List.lookup, hne]]
      exact ih (n + 1) i f hb' h

lemma getVal_groupingKeysOf (cfg : AggConfig) (it0 : Snapshot)
    (h5 : cfg.groupByFields.length ≤ 5) (i : Nat) (f : String)
    (hm : (i, f) ∈ cfg.groupByFields.enum) :
    getVal (groupingKeysOf cfg it0) ("key" ++ toString (i + 1)) = getVal it0 f := by
  have hl : (groupingKeysOf cfg it0).lookup ("key" ++ toString (i + 1))
      = some (getVal it0 f) := by
    unfold groupingKeysOf
    rw [show cfg.groupByFields.enum = cfg.groupByFields.enumFrom 0 from rfl] at hm ⊢
    exact lookup_enumFrom_keys it0 cfg.groupByFields 0 i f (by simpa using h5) hm
  rw [show getVal (groupingKeysOf cfg it0) ("key" ++ toString (i + 1))
        = (match (groupingKeysOf cfg it0).lookup ("key" ++ toString (i + 1)) with
           | some v => v
           | none => Value.vundefined) from rfl, hl]

lemma aggMatches_aggPatch (cfg cfg2 : AggConfig) (it0q : Snapshot) (r : AggRecord)
    (items : List Snapshot) (it0 : Snapshot) (uid : UserId) (now : Nat) :
    aggMatches cfg it0q (aggPatch r cfg2 items it0 uid now) = aggMatches cfg it0q r := rfl

lemma aggMatches_congr (cfg : AggConfig) (it0 it0' : Snapshot)
    (h : ∀ f ∈ cfg.groupByFields, getVal it0' f = getVal it0 f) (r : AggRecord) :
    aggMatches cfg it0' r = aggMatches cfg it0 r := by
  unfold aggMatches
  have hall : cfg.groupByFields.enum.all (fun p =>
        getVal r.groupingKeys ("key" ++ toString (p.1 + 1)) == getVal it0' p.2)
      = cfg.groupByFields.enum.all (fun p =>
        getVal r.groupingKeys ("key" ++ toString (p.1 + 1)) == getVal it0 p.2) := by
    refine all_congr_list _ _ _ ?_
    intro p hp
    have hmem : p.2 ∈ cfg.groupByFields := by
      have h2 := List.mem_enumFrom hp
      have hlt : p.1 < cfg.groupByFields.length := by simpa using h2.2.1
      have h3 : p.2 = cfg.groupByFields[p.1] := by simpa using h2.2.2
      rw [h3]
      exact List.getElem_mem hlt
    rw [h p.2 hmem]
  rw [hall]

lemma aggMatches_newAggRecord (cfg : AggConfig) (items : List Snapshot) (it0 : Snapshot)
    (uid : UserId) (now : Nat) (h5 : cfg.groupByFields.length ≤ 5) :
    aggMatches cfg it0 (newAggRecord cfg items it0 uid now) = true := by
  unfold aggMatches
  rw [show (newAggRecord cfg items it0 uid now).groupingKeys = groupingKeysOf cfg it0 from rfl,
      show (newAggRecord cfg items it0 uid now).entityType = cfg.entityType from rfl,
      show (newAggRecord cfg items it0 uid now).aggregationType = cfg.aggregationType from rfl]
  simp only [beq_self_eq_true, Bool.true_and]
  rw [List.all_eq_true]
  rintro ⟨i, f⟩ hp
  rw [getVal_groupingKeysOf cfg it0 h5 i f hp]
  simp


lemma calcAgg_some (db : AggDB) (it0 : Snapshot) (rest : List Snapshot) (cfg : AggConfig)
    (uid : UserId) (now : Nat) (hit : Nat × AggRecord)
    (hf : findFirstAgg db cfg it0 = some hit) :
    calculateAggregation db (it0 :: rest) cfg uid now
      = ({ db with recs := db.recs.map (fun p =>
            if p.1 == hit.1 then (p.1, aggPatch p.2 cfg (it0 :: rest) it0 uid now) else p) },
         .ok { aggregationId := hit.1, updated := true }) := by
  unfold calculateAggregation
  simp only []
  rw [hf]

lemma calcAgg_none (db : AggDB) (it0 : Snapshot) (rest : List Snapshot) (cfg : AggConfig)
    (uid : UserId) (now : Nat)
    (hf : findFirstAgg db cfg it0 = none) :
    calculateAggregation db (it0 :: rest) cfg uid now
      = ({ db with
             recs := db.recs ++ [(db.nextId, newAggRecord cfg (it0 :: rest) it0 uid now)]
             nextId := db.nextId + 1 },
         .ok { aggregationId := db.nextId, created := true }) := by
  unfold calculateAggregation
  simp only []
  rw [hf]

/-- Claim C4: `calculateAggregation` performs exactly one write per call —
if a record of the same `(entityType, aggregationType, groupingKeys)` group
exists it is patched in place (same id, same store size, original
`createdBy`/`createdAt`/`groupingKeys` kept, all other records untouched);
otherwise exactly one new record is appended; and a consecutive call for
the same group values writes to the same record id without creating a
duplicate. -/
theorem C4_upsert_exactly_one_write (db : AggDB) (it0 : Snapshot) (rest : List Snapshot)
    (cfg : AggConfig) (uid : UserId) (now : Nat) (out : AggOut)
    (hkeys : (db.recs.map Prod.fst).Nodup)
    (h5 : cfg.groupByFields.length ≤ 5)
    (h : (calculateAggregation db (it0 :: rest) cfg uid now).2 = .ok out) :
    (∀ rid r, findFirstAgg db cfg it0 = some (rid, r) →
      out = { aggregationId := rid, updated := true } ∧
      (calculateAggregation db (it0 :: rest) cfg uid now).1.recs.length = db.recs.length ∧
      lookupAgg (calculateAggregation db (it0 :: rest) cfg uid now).1 rid
        = some (aggPatch r cfg (it0 :: rest) it0 uid now) ∧
      (aggPatch r cfg (it0 :: rest) it0 uid now).createdBy = r.createdBy ∧
      (aggPatch r cfg (it0 :: rest) it0 uid now).createdAt = r.createdAt ∧
      (aggPatch r cfg (it0 :: rest) it0 uid now).groupingKeys = r.groupingKeys ∧
      (∀ k, k ≠ rid → lookupAgg (calculateAggregation db (it0 :: rest) cfg uid now).1 k
        = lookupAgg db k)) ∧
    (findFirstAgg db cfg it0 = none →
      out = { aggregationId := db.nextId, created := true } ∧
      (calculateAggregation db (it0 :: rest) cfg uid now).1.recs
        = db.recs ++ [(db.nextId, newAggRecord cfg (it0 :: rest) it0 uid now)]) ∧
    (∀ it0' rest' uid' now' out',
      (∀ f ∈ cfg.groupByFields, getVal it0' f = getVal it0 f) →
      (calculateAggregation (calculateAggregation db (it0 :: rest) cfg uid now).1
          (it0' :: rest') cfg uid' now').2 = .ok out' →
      out'.aggregationId = out.aggregationId ∧
      (calculateAggregation (calculateAggregation db (it0 :: rest) cfg uid now).1
          (it0' :: rest') cfg uid' now').1.recs.length
        = (calculateAggregation db (it0 :: rest) cfg uid now).1.recs.length) := by
  cases hfind : findFirstAgg db cfg it0 with
  | some hit =>
    have hC : calculateAggregation db (it0 :: rest) cfg uid now
        = ({ db with recs := db.recs.map (fun p =>
              if p.1 == hit.1 then (p.1, aggPatch p.2 cfg (it0 :: rest) it0 uid now) else p) },
           .ok { aggregationId := hit.1, updated := true }) :=
      calcAgg_some db it0 rest cfg uid now hit hfind
    rw [hC] at h
    have hout : out = { aggregationId := hit.1, updated := true } := (Except.ok.inj h).symm
    have hmemhit : (hit.1, hit.2) ∈ db.recs := by
      have hm := List.mem_of_find?_eq_some hfind
      simpa using hm
    have hkr : db.recs.find? (fun p => p.1 == hit.1) = some (hit.1, hit.2) :=
      find?_keyed_of_nodup db.recs hit.1 hit.2 hkeys hmemhit
    refine ⟨?_, ?_, ?_⟩
    · rintro rid r hsome
      have hpair : hit = (rid, r) := Option.some.inj hsome
      subst hpair
      refine ⟨hout, ?_, ?_, rfl, rfl, rfl, ?_⟩
      · rw [hC]
        exact List.length_map _ _
      · rw [hC]
        unfold lookupAgg
        rw [show ({ db with recs := db.recs.map (fun p =>
              if p.1 == (rid, r).1 then (p.1, aggPatch p.2 cfg (it0 :: rest) it0 uid now) else p) }
              : AggDB).recs
            = db.recs.map (fun p =>
              if p.1 == rid then (p.1, aggPatch p.2 cfg (it0 :: rest) it0 uid now) else p) from rfl]
        rw [find?_map_replace db.recs rid (fun v => aggPatch v cfg (it0 :: rest) it0 uid now)]
        rw [hkr]
        rfl
      · intro k hk
        rw [hC]
        unfold lookupAgg
        rw [show ({ db with recs := db.recs.map (fun p =>
              if p.1 == (rid, r).1 then (p.1, aggPatch p.2 cfg (it0 :: rest) it0 uid now) else p) }
              : AggDB).recs
            = db.recs.map (fun p =>
              if p.1 == rid then (p.1, aggPatch p.2 cfg (it0 :: rest) it0 uid now) else p) from rfl]
        rw [find?_map_replace_ne db.recs k rid hk
          (fun v => aggPatch v cfg (it0 :: rest) it0 uid now)]
    · intro hnone
      exact absurd hnone (by simp)
    · intro it0' rest' uid' now' out' hgv h2
      have hpredeq : (fun p : Nat × AggRecord => aggMatches cfg it0' p.2)
          = (fun p : Nat × AggRecord => aggMatches cfg it0 p.2) :=
        funext fun p => aggMatches_congr cfg it0 it0' hgv p.2
      have hfind2 : findFirstAgg (calculateAggregation db (it0 :: rest) cfg uid now).1 cfg it0'
          = some (hit.1, aggPatch hit.2 cfg (it0 :: rest) it0 uid now) := by
        rw [hC]
        unfold findFirstAgg
        rw [show ({ db with recs := db.recs.map (fun p =>
              if p.1 == hit.1 then (p.1, aggPatch p.2 cfg (it0 :: rest) it0 uid now) else p) }
              : AggDB).recs
            = db.recs.map (fun p =>
              if p.1 == hit.1 then (p.1, aggPatch p.2 cfg (it0 :: rest) it0 uid now) else p)
          from rfl]
        rw [hpredeq]
        have hstep := find?_map_pointwise db.recs (fun p => aggMatches cfg it0 p.2)
          (fun p => if p.1 == hit.1 then (p.1, aggPatch p.2 cfg (it0 :: rest) it0 uid now) else p)
          hit ?hp hfind
        case hp =>
          intro x
          simp only []
          by_cases hx : (x.1 == hit.1) = true
          · rw [if_pos hx]
            exact aggMatches_aggPatch cfg cfg it0 x.2 (it0 :: rest) it0 uid now
          · rw [if_neg hx]
        rw [hstep]
        simp
      have hC2 : calculateAggregation (calculateAggregation db (it0 :: rest) cfg uid now).1
          (it0' :: rest') cfg uid' now'
          = ({ (calculateAggregation db (it0 :: rest) cfg uid now).1 with
                recs := (calculateAggregation db (it0 :: rest) cfg uid now).1.recs.map (fun p =>
                  if p.1 == hit.1 then
                    (p.1, aggPatch p.2 cfg (it0' :: rest') it0' uid' now') else p) },
             .ok { aggregationId := hit.1, updated := true }) :=
        calcAgg_some _ it0' rest' cfg uid' now'
          (hit.1, aggPatch hit.2 cfg (it0 :: rest) it0 uid now) hfind2
      rw [hC2] at h2
      have hout2 : out' = { aggregationId := hit.1, updated := true } := (Except.ok.inj h2).symm
      constructor
      · rw [hout2, hout]
      · rw [hC2]
        exact List.length_map _ _
  | none =>
    have hC : calculateAggregation db (it0 :: rest) cfg uid now
        = ({ db with
               recs := db.recs ++ [(db.nextId, newAggRecord cfg (it0 :: rest) it0 uid now)]
               nextId := db.nextId + 1 },
           .ok { aggregationId := db.nextId, created := true }) :=
      calcAgg_none db it0 rest cfg uid now hfind
    rw [hC] at h
    have hout : out = { aggregationId := db.nextId, created := true } := (Except.ok.inj h).symm
    refine ⟨?_, ?_, ?_⟩
    · rintro rid r hsome
      exact absurd hsome (by simp)
    · intro _
      rw [hC]
      exact ⟨hout, rfl⟩
    · intro it0' rest' uid' now' out' hgv h2
      have hpredeq : (fun p : Nat × AggRecord => aggMatches cfg it0' p.2)
          = (fun p : Nat × AggRecord => aggMatches cfg it0 p.2) :=
        funext fun p => aggMatches_congr cfg it0 it0' hgv p.2
      have hfind2 : findFirstAgg (calculateAggregation db (it0 :: rest) cfg uid now).1 cfg it0'
          = some (db.nextId, newAggRecord cfg (it0 :: rest) it0 uid now) := by
        rw [hC]
        unfold findFirstAgg
        rw [show ({ db with
              recs := db.recs ++ [(db.nextId, newAggRecord cfg (it0 :: rest) it0 uid now)]
              nextId := db.nextId + 1 } : AggDB).recs
            = db.recs ++ [(db.nextId, newAggRecord cfg (it0 :: rest) it0 uid now)] from rfl]
        rw [hpredeq, List.find?_append]
        rw [show db.recs.find? (fun p => aggMatches cfg it0 p.2) = none from hfind]
        rw [show [(db.nextId, newAggRecord cfg (it0 :: rest) it0 uid now)].find?
              (fun p => aggMatches cfg it0 p.2)
            = some (db.nextId, newAggRecord cfg (it0 :: rest) it0 uid now) from
          List.find?_cons_of_pos _ (aggMatches_newAggRecord cfg (it0 :: rest) it0 uid now h5)]
        rfl
      have hC2 : calculateAggregation (calculateAggregation db (it0 :: rest) cfg uid now).1
          (it0' :: rest') cfg uid' now'
          = ({ (calculateAggregation db (it0 :: rest) cfg uid now).1 with
                recs := (calculateAggregation db (it0 :: rest) cfg uid now).1.recs.map (fun p =>
                  if p.1 == db.nextId then
                    (p.1, aggPatch p.2 cfg (it0' :: rest') it0' uid' now') else p) },
             .ok { aggregationId := db.nextId, updated := true }) :=
        calcAgg_some _ it0' rest' cfg uid' now' _ hfind2
      rw [hC2] at h2
      have hout2 : out' = { aggregationId := db.nextId, updated := true } := (Except.ok.inj h2).symm
      constructor
      · rw [hout2, hout]
      · rw [hC2]
        exact List.length_map _ _

/-- Witness for C4: aggregating the spec example over the empty store
inserts exactly one new record (and nothing else changes). -/
theorem C4_witness :
    (calculateAggregation aggDbE (item1W :: [item2W]) aggCfgW 1 7).1.recs
      = aggDbE.recs ++ [(aggDbE.nextId, newAggRecord aggCfgW (item1W :: [item2W]) item1W 1 7)] :=
  ((C4_upsert_exactly_one_write aggDbE item1W [item2W] aggCfgW 1 7
      { aggregationId := 0, created := true } (by decide) (by decide) rfl).2.1 rfl).2

end PPDO
